import Mathlib

/-!
Verification development for the KuN web server core (`src/webserver/httpd.c`).

The C source is shallowly embedded: every handler of the event-driven server
is translated to a pure Lean function over an explicit `ServerSt` record.
External effects (socket reads and writes, `accept`, `open`, `time`) are passed
in as explicit oracle parameters; process aborts (`exit`, failed `assert`,
dereference of a null pointer, a read of an uninitialized variable) are
modelled as `Except.error` outcomes.  Machine integers that matter here are
small non-negative counters, modelled as `Nat`; values that C stores in
plain `int` and that may be negative (descriptors, `atoi` results) are `Int`.

Two ghost fields instrument undefined behaviour that the C code would
otherwise perform silently:
`badFdWrite` records that `write(2)` was issued on descriptor `-1`
(`appendToChatLog` with a missing chat log and assertions compiled out), and
`nulOutOfBounds` records that the NUL-terminator store
`connection->buffer[connection->bufferFreeOffset] = 0` in `receiveConnection`
landed at an index that is not smaller than the allocated buffer size.
-/

/-- Byte values as stored in the C `char` buffers. -/
abbrev Byte := Nat

/-- Default size of input buffers (`#define BUFFER_SIZE 1024`). -/
def BUFFER_SIZE : Nat := 1024

/-- Maximum size of input buffers (`#define MAX_BUFFER_SIZE 1024 * 1024`). -/
def MAX_BUFFER_SIZE : Nat := 1024 * 1024

/-- Maximum size of requestable urls (`#define MAX_URL_SIZE 256`). -/
def MAX_URL_SIZE : Nat := 256

/-- Overallocation when rebuilding the poll struct (`INITIAL_FREE_SLOTS_IN_POLLSTRUCT`). -/
def INITIAL_FREE_SLOTS_IN_POLLSTRUCT : Nat := 8

/-- Free-slot slack that triggers a downsize (`FREE_SLOTS_TO_DOWNSIZE_POLLSTRUCT`). -/
def FREE_SLOTS_TO_DOWNSIZE_POLLSTRUCT : Nat := 15

/-- Poll event bit `POLLIN`. -/
def POLLIN : Nat := 1

/-- Poll event bit `POLLOUT`. -/
def POLLOUT : Nat := 4

/-- Poll event bit `POLLERR`. -/
def POLLERR : Nat := 8

/-- Poll event bit `POLLHUP`. -/
def POLLHUP : Nat := 16

/-- Poll event bit `POLLNVAL`. -/
def POLLNVAL : Nat := 32

/-- Bytes of a string literal, as the C source stores them in `char` arrays. -/
def strBytes (s : String) : List Byte := s.data.map Char.toNat

/-- The part of a buffer that a C string function sees: everything before the
first NUL byte. -/
def cString (buf : List Byte) : List Byte := buf.takeWhile (fun b => b ≠ 0)

/-- Length of the C string stored in `buf` (`strlen`). -/
def cStrlen (buf : List Byte) : Nat := (cString buf).length

/-- Index of the first occurrence of `pat` in `hay` (`strstr`), if any. -/
def findSub (pat : List Byte) : List Byte → Option Nat
  | [] => if pat.isEmpty then some 0 else none
  | b :: rest =>
    if pat.isPrefixOf (b :: rest) then some 0
    else (findSub pat rest).map (fun n => n + 1)

/-- Accumulating tokenizer: splits on the delimiter set `{CR, LF}` dropping
empty tokens, which is what repeated `strtok(buffer, "\r\n")` produces. -/
def splitTokensAux : List Byte → List Byte → List (List Byte)
  | [], cur => if cur.isEmpty then [] else [cur.reverse]
  | b :: rest, cur =>
    if b = 13 ∨ b = 10 then
      if cur.isEmpty then splitTokensAux rest []
      else cur.reverse :: splitTokensAux rest []
    else splitTokensAux rest (b :: cur)

/-- Tokens of a header section, as produced by the `strtok` loop in
`parseRequest`. -/
def splitTokens (buf : List Byte) : List (List Byte) := splitTokensAux buf []

/-- Digit-accumulation part of `atoi`. -/
def atoiDigits : List Byte → Nat → Nat
  | [], acc => acc
  | b :: rest, acc =>
    if 48 ≤ b ∧ b ≤ 57 then atoiDigits rest (acc * 10 + (b - 48)) else acc

/-- C `atoi`: skip whitespace, optional sign, then decimal digits. -/
def atoi (s : List Byte) : Int :=
  let s1 := s.dropWhile (fun b => b = 32 ∨ b = 9 ∨ b = 10 ∨ b = 13 ∨ b = 11 ∨ b = 12)
  match s1 with
  | 45 :: rest => -(atoiDigits rest 0 : Int)
  | 43 :: rest => (atoiDigits rest 0 : Int)
  | _ => (atoiDigits s1 0 : Int)

/-- C `strcpy(dst + off, src)`: writes the bytes of `src` and a terminating NUL
at offset `off`, leaving the rest of `dst` unchanged.  The result is truncated
to the allocation size of `dst`; all uses in the source are guarded by explicit
size checks that keep the write in bounds. -/
def strcpyAt (dst : List Byte) (off : Nat) (src : List Byte) : List Byte :=
  (dst.take off ++ src ++ [0] ++ dst.drop (off + src.length + 1)).take dst.length

/-- Raw byte copy into `dst` at offset `off` (no terminating NUL), truncated to
the allocation size of `dst`. -/
def writeBytesAt (dst : List Byte) (off : Nat) (src : List Byte) : List Byte :=
  (dst.take off ++ src ++ dst.drop (off + src.length)).take dst.length

/-- Broken-down UTC time, the relevant fields of C `struct tm` as returned by
`gmtime`.  `tm_year` already includes the 1900 offset. -/
structure Tm where
  tm_sec : Nat
  tm_min : Nat
  tm_hour : Nat
  tm_mday : Nat
  tm_mon : Fin 12
  tm_year : Nat
  tm_wday : Fin 7
deriving DecidableEq, Repr

/-- Abbreviated weekday name, the `%a` conversion. -/
def wdayName (w : Fin 7) : String :=
  ["Sun", "Mon", "Tue", "Wed", "Thu", "Fri", "Sat"].getD w.val "Sun"

/-- Abbreviated month name, the `%b` conversion. -/
def monName (m : Fin 12) : String :=
  ["Jan", "Feb", "Mar", "Apr", "May", "Jun",
   "Jul", "Aug", "Sep", "Oct", "Nov", "Dec"].getD m.val "Jan"

/-- Two-digit zero-padded decimal, the `%d`, `%H`, `%M`, `%S` conversions. -/
def pad2 (n : Nat) : String := if n < 10 then "0" ++ toString n else toString n

/-- The date part `%a, %d %b %Y %H:%M:%S %Z` of the `strftime` format used by
`bufferHeaders`, rendered for a UTC broken-down time (`%Z` prints `GMT` for
`gmtime` results). -/
def strftimeTimePart (t : Tm) : String :=
  wdayName t.tm_wday ++ ", " ++ pad2 t.tm_mday ++ " " ++ monName t.tm_mon ++ " " ++
    toString t.tm_year ++ " " ++ pad2 t.tm_hour ++ ":" ++ pad2 t.tm_min ++ ":" ++
    pad2 t.tm_sec ++ " GMT"

/-- The full `strftime` output of `bufferHeaders`, format
`"Date: %a, %d %b %Y %H:%M:%S %Z\r\n"`. -/
def dateMessage (t : Tm) : String := "Date: " ++ strftimeTimePart t ++ "\r\n"

/-- Connection states (`statusType` in the source). -/
inductive statusType where
  | statusClosed
  | statusIncomingRequest
  | statusOutgoingAnswer
  | statusChatReceiver
  | statusChatSender
deriving DecidableEq, Repr

/-- What a stored file descriptor refers to.  The C code stores a plain `int`;
the association between a descriptor and the file it was opened on lives in
the kernel and is modelled symbolically.  `nofile` corresponds to the value
`-1`. -/
inductive FileRef where
  | nofile
  | chatLogRO
  | diskRO
  | errorDoc
deriving DecidableEq, Repr

/-- All relevant information about an active connection
(`struct connectionType`).  The intrusive `prev`/`next` pointers are replaced
by membership in the `registry` list of `ServerSt`; `id` stands for the
identity of the heap node (pointer identity). -/
structure ConnectionType where
  id : Nat
  status : statusType
  fileFd : FileRef
  socketFd : Int
  bufferFreeOffset : Nat
  bufferLength : Nat
  bufferSize : Nat
  pollStructIndex : Nat
  buffer : List Byte
  body : Nat
  contentLength : Int
deriving DecidableEq, Repr

/-- One `struct pollfd` slot. -/
structure Pollfd where
  fd : Int
  events : Nat
  revents : Nat
deriving DecidableEq, Repr

/-- A zeroed poll slot (`memset(..., 0, sizeof(struct pollfd))`). -/
def zeroPollfd : Pollfd := { fd := 0, events := 0, revents := 0 }

/-- All information extracted by parsing a client request
(`struct parseResult`).  `contentLength` and `url` are `Option`s because
`parseRequest` initializes neither field: `none` models the uninitialized
value. -/
structure parseResult where
  post : Bool
  contentLength : Option Int
  url : Option (List Byte)
  body : Nat
deriving DecidableEq, Repr

/-- The mutable global state of the server: the poll table, its bookkeeping,
the doubly-linked connection list (as a list in head-to-tail order), and the
on-disk chat log.  `netSent`, `badFdWrite` and `nulOutOfBounds` are ghost
observers of I/O effects. -/
structure ServerSt where
  listeningSocket : Int
  pollStruct : List Pollfd
  pollStructSize : Nat
  nextFreePollStructIndex : Nat
  registry : List ConnectionType
  nextId : Nat
  chatLogExists : Bool
  chatLog : List Byte
  netSent : List Byte
  badFdWrite : Bool
  nulOutOfBounds : Bool
deriving DecidableEq, Repr

/-- Process-terminating outcomes: `exit(n)`, a failed `assert`, a dereference
of a null pointer, and a branch on an uninitialized value (undefined
behaviour). -/
inductive Crash where
  | exitCode (n : Nat)
  | assertFail
  | uninitRead
  | nullDeref
deriving DecidableEq, Repr

/-- Oracle inputs consumed by one handler invocation on one connection:
results of `realloc`, the socket `read`, the socket `write`, the file `read`,
the two `open` calls of the static-file path, and the current UTC time. -/
structure ConnInput where
  reallocOk : Bool
  readData : Option (List Byte)
  sendResult : Option Nat
  fileReadData : Option (List Byte)
  fileOpenOk : Bool
  errorDocOk : Bool
  now : Tm

/-- Read a poll slot; out-of-range reads yield the zero slot. -/
def getSlot (st : ServerSt) (i : Nat) : Pollfd := st.pollStruct.getD i zeroPollfd

/-- Write a poll slot (in-bounds in all guarded uses). -/
def setSlot (st : ServerSt) (i : Nat) (p : Pollfd) : ServerSt :=
  { st with pollStruct := st.pollStruct.set i p }

/-- The assignment `pollStruct[i].events = e`. -/
def setSlotEvents (st : ServerSt) (i : Nat) (e : Nat) : ServerSt :=
  setSlot st i { getSlot st i with events := e }

/-- Mutation of the connection node with identity `cid` through its pointer. -/
def updateConn (st : ServerSt) (cid : Nat) (f : ConnectionType → ConnectionType) : ServerSt :=
  { st with registry := st.registry.map (fun k => if k.id = cid then f k else k) }

/-- Resizes the poll struct (`resizePollStruct`).  The new size is
`(active connections) + 2 + (1 if growing for an overflow connection) +
INITIAL_FREE_SLOTS_IN_POLLSTRUCT`; newly allocated slots are zeroed, a shrink
keeps the prefix. -/
def resizePollStruct (increaseSize : Bool) (st : ServerSt) : ServerSt :=
  let newSize := st.nextFreePollStructIndex - 1 + 2 +
    (if increaseSize then 1 else 0) + INITIAL_FREE_SLOTS_IN_POLLSTRUCT
  { st with
    pollStruct := st.pollStruct.take newSize ++
      List.replicate (newSize - st.pollStruct.length) zeroPollfd,
    pollStructSize := newSize }

/-- Swap step of `closeConnection`: when the closed connection does not own
the last occupied slot, scan the (already detached) registry from the tail for
the connection owning slot `origNextFree - 1`, copy that slot over the closed
connection's slot, and redirect the found connection's `pollStructIndex`.
When no connection owns the last slot the C code dereferences a null pointer
after a failing assert (`Crash.nullDeref`). -/
def closeSwap (origNextFree : Nat) (connection : ConnectionType) (st1 : ServerSt) :
    Except Crash ServerSt :=
  if connection.pollStructIndex ≠ origNextFree - 1 then
    match st1.registry.reverse.find? (fun k => k.pollStructIndex = origNextFree - 1) with
    | none => Except.error Crash.nullDeref
    | some conIt =>
      let stA := setSlot st1 connection.pollStructIndex (getSlot st1 conIt.pollStructIndex)
      Except.ok (updateConn stA conIt.id
        (fun k => { k with pollStructIndex := connection.pollStructIndex }))
  else Except.ok st1

/-- Tail of `closeConnection`: zero the vacated last slot, decrement
`nextFreePollStructIndex`, and downsize the poll struct when the slack
exceeds the threshold. -/
def closeTail (origNextFree : Nat) (st2 : ServerSt) : ServerSt :=
  let nf := origNextFree - 1
  let st3 := setSlot { st2 with nextFreePollStructIndex := nf } nf zeroPollfd
  if nf - 1 + 2 + FREE_SLOTS_TO_DOWNSIZE_POLLSTRUCT < st3.pollStructSize then
    resizePollStruct false st3
  else st3

/-- Closes a given connection (`closeConnection`): detach the node from the
list (for unique node identities the C pointer unlink equals filtering the id
out), release its descriptors and buffer, then run the swap-remove on the poll
table followed by the shrink bookkeeping. -/
def closeConnection (st : ServerSt) (connection : ConnectionType) : Except Crash ServerSt :=
  match closeSwap st.nextFreePollStructIndex connection
      { st with registry := st.registry.filter (fun k => k.id ≠ connection.id) } with
  | Except.error e => Except.error e
  | Except.ok st2 => Except.ok (closeTail st.nextFreePollStructIndex st2)

/-- Shared tail of `bufferHeaders`: append the blank line `"\r\n"` at the
current string end, set `bufferLength` to `strlen(buffer)` and rewind
`bufferFreeOffset` to 0. -/
def finishHeaders (connection : ConnectionType) (buf : List Byte) (offset : Nat) :
    ConnectionType :=
  let buf2 := strcpyAt buf offset (strBytes "\r\n")
  { connection with buffer := buf2, bufferLength := cStrlen buf2, bufferFreeOffset := 0 }

/-- Stores the headers for the given status code in the buffer
(`bufferHeaders`).  Status 200 writes the status line and a `Date:` header
formatted by `strftime` into a 40-byte stack buffer; status 404 writes only
the status line; both append the header-terminating blank line.  Undersized
buffers make the C code `exit(1)`.  Any other status code returns without
touching the connection. -/
def bufferHeaders (t : Tm) (connection : ConnectionType) (statusCode : Nat) :
    Except Crash ConnectionType :=
  if statusCode = 200 then
    let statusCodeString := strBytes "HTTP/1.0 200 OK\r\n"
    let dateMsg := strBytes (dateMessage t)
    if dateMsg.length + 1 > 40 then Except.error (Crash.exitCode 1)
    else if dateMsg.length + statusCodeString.length + 3 > connection.bufferSize then
      Except.error (Crash.exitCode 1)
    else
      let buf1 := strcpyAt connection.buffer 0 statusCodeString
      let buf2 := strcpyAt buf1 statusCodeString.length dateMsg
      Except.ok (finishHeaders connection buf2 (cStrlen buf2))
  else if statusCode = 404 then
    let statusCodeString := strBytes "HTTP/1.0 404 Not Found\r\n"
    if statusCodeString.length + 3 > connection.bufferSize then
      Except.error (Crash.exitCode 1)
    else
      let buf1 := strcpyAt connection.buffer 0 statusCodeString
      Except.ok (finishHeaders connection buf1 (cStrlen buf1))
  else Except.ok connection

/-- Send the content of a buffer through the network (`sendBuffer`): attempt to
write `bufferLength - bufferFreeOffset` bytes starting at `bufferFreeOffset`;
a failed or zero-byte write is fatal (`exit(1)`); otherwise advance
`bufferFreeOffset` by the bytes accepted.  The oracle result is clamped to the
requested length, as `write(2)` never reports more than it was given. -/
def sendBuffer (inp : ConnInput) (connection : ConnectionType) :
    Except Crash ConnectionType :=
  let len := connection.bufferLength - connection.bufferFreeOffset
  match inp.sendResult with
  | none => Except.error (Crash.exitCode 1)
  | some sres =>
    let sent := min sres len
    if sent = 0 then Except.error (Crash.exitCode 1)
    else Except.ok { connection with bufferFreeOffset := connection.bufferFreeOffset + sent }

/-- Sends the next piece of information over the network (`sendConnection`).
Requires `bufferFreeOffset < bufferLength` (asserted in the source).  After
the write, when the buffer is drained: close the connection if no file backs
it, otherwise refill the buffer with up to `bufferSize - 1` bytes from the
file, closing on end of file. -/
def sendConnection (inp : ConnInput) (st : ServerSt) (connection : ConnectionType) :
    Except Crash ServerSt :=
  if connection.bufferFreeOffset < connection.bufferLength then
    match sendBuffer inp connection with
    | Except.error e => Except.error e
    | Except.ok c1 =>
      let sent := c1.bufferFreeOffset - connection.bufferFreeOffset
      let written := ((connection.buffer.drop connection.bufferFreeOffset).take
        (connection.bufferLength - connection.bufferFreeOffset)).take sent
      let st1 := { updateConn st connection.id (fun _ => c1) with
        netSent := st.netSent ++ written }
      if c1.bufferFreeOffset = c1.bufferLength then
        if c1.fileFd = FileRef.nofile then closeConnection st1 c1
        else
          match inp.fileReadData with
          | none => Except.error (Crash.exitCode 1)
          | some d0 =>
            let d := d0.take (c1.bufferSize - 1)
            if 0 < d.length then
              let c2 := { c1 with
                bufferFreeOffset := 0
                bufferLength := d.length
                buffer := writeBytesAt c1.buffer 0 d }
              Except.ok (updateConn st1 connection.id (fun _ => c2))
            else closeConnection st1 c1
      else Except.ok st1
  else Except.error Crash.assertFail

/-- Header-line scanning loop of `parseRequest` (the `strtok` loop).  A line
whose first three bytes are `GET` yields the whitespace-delimited target
(truncated to `MAX_URL_SIZE - 1`; a missing space is fatal).  A line beginning
`POST /broadcast.service` sets `post`.  Once `post` is set, a line beginning
`Content-Length: ` captures the length via `atoi` and ends the scan. -/
def parseTokens : List (List Byte) → parseResult → Except Crash parseResult
  | [], r => Except.ok r
  | tok :: rest, r =>
    let afterGet : Except Crash parseResult :=
      if (strBytes "GET").isPrefixOf tok then
        let t2 := tok.drop 4
        match t2.findIdx? (fun b => b = 32) with
        | none => Except.error (Crash.exitCode 1)
        | some j => Except.ok { r with url := some (t2.take (min (MAX_URL_SIZE - 1) j)) }
      else Except.ok r
    match afterGet with
    | Except.error e => Except.error e
    | Except.ok r1 =>
      let r2 := if (strBytes "POST /broadcast.service").isPrefixOf tok then
        { r1 with post := true } else r1
      if r2.post && (strBytes "Content-Length: ").isPrefixOf tok then
        Except.ok { r2 with
          contentLength := some (atoi (tok.drop (strBytes "Content-Length: ").length)) }
      else parseTokens rest r2

/-- Parses a HTTP request (`parseRequest`).  Only `result.post` is
initialized; `contentLength` and `url` start out as `none` (uninitialized).
The body starts four bytes past the first `\r\n\r\n`; the header section
before it is tokenized by `strtok`.  A request without `\r\n\r\n` in its
C string would make the source write through a null pointer. -/
def parseRequest (buffer : List Byte) : Except Crash parseResult :=
  match findSub (strBytes "\r\n\r\n") (cString buffer) with
  | none => Except.error Crash.nullDeref
  | some idx =>
    parseTokens (splitTokens (buffer.take idx))
      { post := false, contentLength := none, url := none, body := idx + 4 }

/-- Receive a message through a socket (`receiveMessage`): a failed `read` is
fatal; otherwise at most `size` bytes arrive. -/
def receiveMessage (inp : ConnInput) (size : Nat) : Except Crash (List Byte) :=
  match inp.readData with
  | none => Except.error (Crash.exitCode 1)
  | some d => Except.ok (d.take size)

/-- Appends a message to the chat log (`appendToChatLog`): open
`CHATLOGFILE` with `O_WRONLY | O_APPEND` (no `O_CREAT`), write, close.  When
the file does not exist the open returns `-1`; with assertions enabled the
`assert(file != -1)` aborts, with `NDEBUG` the code writes to descriptor `-1`
unchecked and the log is not extended. -/
def appendToChatLog (ndebug : Bool) (st : ServerSt) (message : List Byte) :
    Except Crash ServerSt :=
  if st.chatLogExists then Except.ok { st with chatLog := st.chatLog ++ message }
  else if ndebug then Except.ok { st with badFdWrite := true }
  else Except.error Crash.assertFail

/-- Body of the distribution loop of `checkChatMessageComplete` for one
registry node: a `ChatReceiver` gets a 200 response buffered, the chat log
opened read-only as its file descriptor (asserted to be valid), state
`statusOutgoingAnswer`, and its poll events switched to `POLLOUT`; every other
node is untouched. -/
def distributeStep (ndebug : Bool) (t : Tm) (st : ServerSt) (conIt : ConnectionType) :
    Except Crash ServerSt :=
  if conIt.status = statusType.statusChatReceiver then
    match bufferHeaders t conIt 200 with
    | Except.error e => Except.error e
    | Except.ok c1 =>
      if st.chatLogExists then
        let c2 := { c1 with
          fileFd := FileRef.chatLogRO
          status := statusType.statusOutgoingAnswer }
        Except.ok (setSlotEvents (updateConn st conIt.id (fun _ => c2))
          c2.pollStructIndex POLLOUT)
      else if ndebug then
        let c2 := { c1 with
          fileFd := FileRef.nofile
          status := statusType.statusOutgoingAnswer }
        Except.ok (setSlotEvents (updateConn st conIt.id (fun _ => c2))
          c2.pollStructIndex POLLOUT)
      else Except.error Crash.assertFail
  else Except.ok st

/-- The walk of `checkChatMessageComplete` over the registry, from head to
tail, applying `distributeStep` to each node of the snapshot. -/
def distributeAux (ndebug : Bool) (t : Tm) :
    List ConnectionType → ServerSt → Except Crash ServerSt
  | [], st => Except.ok st
  | conIt :: rest, st =>
    match distributeStep ndebug t st conIt with
    | Except.error e => Except.error e
    | Except.ok st1 => distributeAux ndebug t rest st1

/-- Prints the message to the chat log and closes the connection if the
received body is complete, then distributes the message
(`checkChatMessageComplete`).  The completeness condition is the pointer
comparison `connection->body + contentLength <= buffer + bufferFreeOffset`. -/
def checkChatMessageComplete (ndebug : Bool) (t : Tm) (st : ServerSt)
    (connection : ConnectionType) : Except Crash ServerSt :=
  if (connection.body : Int) + connection.contentLength ≤
      (connection.bufferFreeOffset : Int) then
    match appendToChatLog ndebug st
        ((connection.buffer.drop connection.body).take connection.contentLength.toNat) with
    | Except.error e => Except.error e
    | Except.ok st1 =>
      match closeConnection st1 connection with
      | Except.error e => Except.error e
      | Except.ok st2 => distributeAux ndebug t st2.registry st2
  else Except.ok st

/-- Dispatch part of `receiveConnection`, run after the buffer has been
refilled: a complete header section of a fresh request is parsed; a plain file
request buffers a 200 or 404 response (opening the file, or the 404 error
document) and switches to sending; `POST /broadcast.service` with
`Content-Length` 0 parks the connection as a chat receiver; a nonzero length
makes it a chat sender checked for completeness at once.  A `ChatSender` is
checked for completeness directly.  Reading `result.url` or
`result.contentLength` when the parser never assigned it is undefined
behaviour (`Crash.uninitRead`). -/
def dispatchRequest (ndebug : Bool) (inp : ConnInput) (st : ServerSt)
    (c2 : ConnectionType) : Except Crash ServerSt :=
  if c2.status = statusType.statusIncomingRequest ∧
      (findSub (strBytes "\r\n\r\n") (cString c2.buffer)).isSome then
    match parseRequest c2.buffer with
    | Except.error e => Except.error e
    | Except.ok result =>
      if result.post = false then
        match result.url with
        | none => Except.error Crash.uninitRead
        | some _ =>
          if inp.fileOpenOk then
            match bufferHeaders inp.now c2 200 with
            | Except.error e => Except.error e
            | Except.ok c3 =>
              let c4 := { c3 with
                fileFd := FileRef.diskRO
                status := statusType.statusOutgoingAnswer }
              Except.ok (setSlotEvents (updateConn st c2.id (fun _ => c4))
                c4.pollStructIndex POLLOUT)
          else
            match bufferHeaders inp.now c2 404 with
            | Except.error e => Except.error e
            | Except.ok c3 =>
              let c4 := { c3 with
                fileFd := if inp.errorDocOk then FileRef.errorDoc else FileRef.nofile
                status := statusType.statusOutgoingAnswer }
              Except.ok (setSlotEvents (updateConn st c2.id (fun _ => c4))
                c4.pollStructIndex POLLOUT)
      else
        match result.contentLength with
        | none => Except.error Crash.uninitRead
        | some cl =>
          if cl = 0 then
            let c4 := { c2 with status := statusType.statusChatReceiver }
            Except.ok (setSlotEvents (updateConn st c2.id (fun _ => c4))
              c4.pollStructIndex 0)
          else
            let c4 := { c2 with
              status := statusType.statusChatSender
              body := result.body
              contentLength := cl }
            checkChatMessageComplete ndebug inp.now
              (updateConn st c2.id (fun _ => c4)) c4
  else if c2.status = statusType.statusChatSender then
    checkChatMessageComplete ndebug inp.now st c2
  else Except.ok st

/-- Read phase of `receiveConnection`, run on the (possibly grown) buffer:
read up to `bufferSize - bufferFreeOffset` bytes at `bufferFreeOffset`; zero
bytes mean the peer closed and the connection is disposed; otherwise advance
`bufferFreeOffset` and store a NUL terminator at the new offset — an index
that can equal `bufferSize`, in which case the store is out of bounds
(recorded in `nulOutOfBounds`). -/
def receiveAfterGrow (ndebug : Bool) (inp : ConnInput) (st : ServerSt)
    (connection : ConnectionType) : Except Crash ServerSt :=
  match receiveMessage inp (connection.bufferSize - connection.bufferFreeOffset) with
  | Except.error e => Except.error e
  | Except.ok d =>
    if d.length = 0 then closeConnection st connection
    else
      let newOffset := connection.bufferFreeOffset + d.length
      let buf2 := (writeBytesAt connection.buffer connection.bufferFreeOffset d).set newOffset 0
      let c2 := { connection with bufferFreeOffset := newOffset, buffer := buf2 }
      let st2 := { updateConn st connection.id (fun _ => c2) with
        nulOutOfBounds :=
          if connection.bufferSize ≤ newOffset then true else st.nulOutOfBounds }
      dispatchRequest ndebug inp st2 c2

/-- Read from a given connection and initialize resulting actions
(`receiveConnection`).  A full buffer is first either disposed of (already at
`MAX_BUFFER_SIZE`, or `realloc` failed) or doubled with the new half zeroed;
then the read phase runs. -/
def receiveConnection (ndebug : Bool) (inp : ConnInput) (st : ServerSt)
    (connection : ConnectionType) : Except Crash ServerSt :=
  if connection.bufferFreeOffset = connection.bufferSize then
    if MAX_BUFFER_SIZE ≤ connection.bufferSize then closeConnection st connection
    else if inp.reallocOk = false then closeConnection st connection
    else
      let c1 := { connection with
        buffer := connection.buffer ++ List.replicate connection.bufferSize 0,
        bufferSize := connection.bufferSize * 2 }
      receiveAfterGrow ndebug inp (updateConn st connection.id (fun _ => c1)) c1
  else receiveAfterGrow ndebug inp st connection

/-- Slot-claiming step of `acceptNewConnection`: after room is ensured, the
fresh zeroed connection (1024-byte buffer, state `statusIncomingRequest`, no
file) claims the next free slot with `POLLIN` interest and is appended at the
registry tail. -/
def acceptClaimSlot (fd : Int) (st1 : ServerSt) : ServerSt :=
  let newC2 : ConnectionType := {
    id := st1.nextId, status := statusType.statusIncomingRequest,
    fileFd := FileRef.nofile, socketFd := fd, bufferFreeOffset := 0,
    bufferLength := 0, bufferSize := BUFFER_SIZE,
    pollStructIndex := st1.nextFreePollStructIndex,
    buffer := List.replicate BUFFER_SIZE 0, body := 0, contentLength := 0 }
  let st2 := setSlot st1 st1.nextFreePollStructIndex
    { getSlot st1 st1.nextFreePollStructIndex with fd := fd, events := POLLIN }
  { st2 with
    nextFreePollStructIndex := st2.nextFreePollStructIndex + 1
    registry := st2.registry ++ [newC2]
    nextId := st1.nextId + 1 }

/-- Accepts a new client (`acceptNewConnection`).  A failed `accept` is logged
and ignored.  Otherwise the poll struct is grown when no slot is free and the
new connection claims the next slot. -/
def acceptNewConnection (acceptFd : Option Int) (st : ServerSt) : ServerSt :=
  match acceptFd with
  | none => st
  | some fd =>
    acceptClaimSlot fd (if st.nextFreePollStructIndex ≥ st.pollStructSize - 1 then
      resizePollStruct true st else st)

/-- Result of the blocking `poll` call: a ready count, or a failure with an
`errno` that may or may not be `EINTR`. -/
inductive PollRes where
  | ok (n : Nat)
  | err (eintr : Bool)
deriving DecidableEq, Repr

/-- Oracle inputs for one iteration of the event loop. -/
structure IterInput where
  pollResult : PollRes
  reventsOf : Nat → Nat
  acceptFd : Option Int
  connInput : Nat → ConnInput

/-- The kernel filling in `revents` for every slot on return from `poll`. -/
def fillRevents (rv : Nat → Nat) (st : ServerSt) : ServerSt :=
  { st with
    pollStruct :=
      (List.range st.pollStruct.length).zipWith (fun i p => { p with revents := rv i })
        st.pollStruct }

/-- The per-connection fan-out of `talkToClients`: walk the snapshot of the
registry (the source snapshots `conIt->next` before dispatch; handlers only
ever dispose the node being dispatched); an error/hangup/invalid condition
closes the connection, otherwise readability drives `receiveConnection` and
writability drives `sendConnection` (the latter only in state
`statusOutgoingAnswer`). -/
def loopWalk (ndebug : Bool) (ci : Nat → ConnInput) :
    List Nat → ServerSt → Except Crash ServerSt
  | [], st => Except.ok st
  | cid :: rest, st =>
    match st.registry.find? (fun k => k.id = cid) with
    | none => loopWalk ndebug ci rest st
    | some conIt =>
      let rv := (getSlot st conIt.pollStructIndex).revents
      if rv &&& (POLLHUP ||| POLLERR ||| POLLNVAL) ≠ 0 then
        match closeConnection st conIt with
        | Except.error e => Except.error e
        | Except.ok st1 => loopWalk ndebug ci rest st1
      else if rv &&& POLLIN ≠ 0 then
        match receiveConnection ndebug (ci cid) st conIt with
        | Except.error e => Except.error e
        | Except.ok st1 => loopWalk ndebug ci rest st1
      else if rv &&& POLLOUT ≠ 0 then
        if conIt.status = statusType.statusOutgoingAnswer then
          match sendConnection (ci cid) st conIt with
          | Except.error e => Except.error e
          | Except.ok st1 => loopWalk ndebug ci rest st1
        else loopWalk ndebug ci rest st
      else loopWalk ndebug ci rest st

/-- One iteration of the infinite `for (;;)` loop of `talkToClients`.  The
loop body never returns: an iteration either crashes the process
(`Except.error`, in particular `exit(1)` via `exitIfError` whenever `poll`
reports failure — regardless of `errno`, so also on `EINTR`) or produces the
state for the next iteration.  On a positive ready count the listener is
polled for acceptance first and then the registry is walked. -/
def talkToClientsIteration (ndebug : Bool) (ii : IterInput) (st : ServerSt) :
    Except Crash ServerSt :=
  match ii.pollResult with
  | PollRes.err _ => Except.error (Crash.exitCode 1)
  | PollRes.ok n =>
    if 0 < n then
      let st0 := fillRevents ii.reventsOf st
      let st1 := if (getSlot st0 0).revents &&& POLLIN ≠ 0 then
        acceptNewConnection ii.acceptFd st0 else st0
      loopWalk ndebug ii.connInput (st1.registry.map (fun k => k.id)) st1
    else Except.ok st

/-- Structural invariant of the poll table and registry: sizes agree, the
dense prefix `[0, nextFreePollStructIndex)` has exactly one slot per
connection plus the listener slot 0, node identities and slot indices are
unique, every connection's slot holds its (live, positive) descriptor, and
slot 0 holds the listening socket. -/
def ServerInv (st : ServerSt) : Prop :=
  st.pollStructSize = st.pollStruct.length ∧
  1 ≤ st.nextFreePollStructIndex ∧
  st.nextFreePollStructIndex ≤ st.pollStruct.length ∧
  st.nextFreePollStructIndex = st.registry.length + 1 ∧
  (st.registry.map (fun k => k.id)).Nodup ∧
  (∀ k ∈ st.registry, k.id < st.nextId) ∧
  (st.registry.map (fun k => k.pollStructIndex)).Nodup ∧
  (∀ k ∈ st.registry, 1 ≤ k.pollStructIndex ∧
    k.pollStructIndex < st.nextFreePollStructIndex) ∧
  (∀ k ∈ st.registry, (getSlot st k.pollStructIndex).fd = k.socketFd ∧ 0 < k.socketFd) ∧
  (getSlot st 0).fd = st.listeningSocket ∧ 0 < st.listeningSocket

/-- The counting property of claim C2: the dense prefix holds `|Registry| + 1`
slots and every slot `1 .. nextFree-1` is occupied by a live descriptor. -/
def tableOk (st : ServerSt) : Prop :=
  st.nextFreePollStructIndex = st.registry.length + 1 ∧
  ∀ i ∈ List.range st.nextFreePollStructIndex, 1 ≤ i →
    ∃ k ∈ st.registry, k.pollStructIndex = i ∧
      (getSlot st i).fd = k.socketFd ∧ 0 < k.socketFd

/-- Buffer-size invariant of claim C5: every live connection's buffer capacity
is `1024 * 2 ^ k` for some `k` and never exceeds `MAX_BUFFER_SIZE`, and the
stored byte list has exactly that allocated size. -/
def sizesOk (st : ServerSt) : Prop :=
  ∀ k ∈ st.registry, (∃ e ∈ List.range 11, k.bufferSize = 1024 * 2 ^ e) ∧
    k.buffer.length = k.bufferSize

instance (st : ServerSt) : Decidable (ServerInv st) := by
  unfold ServerInv
  infer_instance

instance (st : ServerSt) : Decidable (tableOk st) := by
  unfold tableOk
  infer_instance

instance (st : ServerSt) : Decidable (sizesOk st) := by
  unfold sizesOk
  infer_instance

/-! ## Basic lemmas about slots, resizing and the registry -/

/-- Field-preservation up to the poll index: `k'` agrees with `k` on every
field except possibly `pollStructIndex` (the displacement a swap-remove may
apply to the neighbour that inherits the freed slot). -/
def eqExceptIndex (k k' : ConnectionType) : Prop :=
  k' = { k with pollStructIndex := k'.pollStructIndex }

theorem getD_set_self {α : Type} (l : List α) (i : Nat) (v d : α) (h : i < l.length) :
    (l.set i v).getD i d = v := by
  simp [List.getD, List.getElem?_set_self, h]

theorem getD_set_ne {α : Type} (l : List α) (i j : Nat) (v d : α) (h : i ≠ j) :
    (l.set i v).getD j d = l.getD j d := by
  simp [List.getD, List.getElem?_set_ne h]

theorem getD_take_lt {α : Type} (l : List α) (n j : Nat) (d : α) (h : j < n) :
    (l.take n).getD j d = l.getD j d := by
  simp [List.getD, List.getElem?_take, h]

theorem resize_length (b : Bool) (st : ServerSt) :
    (resizePollStruct b st).pollStruct.length =
      st.nextFreePollStructIndex - 1 + 2 + (if b then 1 else 0) +
        INITIAL_FREE_SLOTS_IN_POLLSTRUCT := by
  simp [resizePollStruct]
  omega

theorem resize_size_eq (b : Bool) (st : ServerSt) :
    (resizePollStruct b st).pollStructSize = (resizePollStruct b st).pollStruct.length := by
  simp [resizePollStruct]
  omega

theorem getSlot_resize_lt (b : Bool) (st : ServerSt) (j : Nat)
    (h1 : j < st.nextFreePollStructIndex - 1 + 2 + (if b then 1 else 0) +
      INITIAL_FREE_SLOTS_IN_POLLSTRUCT)
    (h2 : j < st.pollStruct.length) :
    getSlot (resizePollStruct b st) j = getSlot st j := by
  unfold getSlot resizePollStruct
  have htl : j < (st.pollStruct.take (st.nextFreePollStructIndex - 1 + 2 +
      (if b then 1 else 0) + INITIAL_FREE_SLOTS_IN_POLLSTRUCT)).length := by
    simp
    omega
  rw [List.getD_append _ _ _ _ htl]
  exact getD_take_lt _ _ _ _ h1

theorem getSlot_setSlot_self (st : ServerSt) (i : Nat) (p : Pollfd)
    (h : i < st.pollStruct.length) : getSlot (setSlot st i p) i = p :=
  getD_set_self _ _ _ _ h

theorem getSlot_setSlot_ne (st : ServerSt) (i j : Nat) (p : Pollfd) (h : i ≠ j) :
    getSlot (setSlot st i p) j = getSlot st j :=
  getD_set_ne _ _ _ _ _ h

theorem getSlot_updateConn (st : ServerSt) (cid : Nat) (f : ConnectionType → ConnectionType)
    (j : Nat) : getSlot (updateConn st cid f) j = getSlot st j := rfl

/-- Splitting the registry at a member with unique identity: the C list detach
removes exactly that node, which for unique ids coincides with filtering the
id out. -/
theorem registry_filter_split (l : List ConnectionType) (c : ConnectionType)
    (hnd : (l.map (fun k => k.id)).Nodup) (hc : c ∈ l) :
    ∃ l1 l2, l = l1 ++ c :: l2 ∧
      l.filter (fun k => k.id ≠ c.id) = l1 ++ l2 ∧
      (∀ k ∈ l1, k.id ≠ c.id) ∧ (∀ k ∈ l2, k.id ≠ c.id) := by
  obtain ⟨l1, l2, rfl⟩ := List.append_of_mem hc
  have hmap : ((l1.map (fun k => k.id)) ++ c.id :: l2.map (fun k => k.id)).Nodup := by
    simpa using hnd
  rw [List.nodup_append] at hmap
  obtain ⟨-, hmid, hdisj⟩ := hmap
  have h2 : ∀ k ∈ l2, k.id ≠ c.id := by
    intro k hk he
    rw [List.nodup_cons] at hmid
    exact hmid.1 (he ▸ List.mem_map_of_mem (fun k => k.id) hk)
  have h1 : ∀ k ∈ l1, k.id ≠ c.id := by
    intro k hk he
    exact hdisj (List.mem_map_of_mem (fun k => k.id) hk)
      (by simp [he])
  refine ⟨l1, l2, rfl, ?_, h1, h2⟩
  rw [List.filter_append, List.filter_cons]
  simp only [decide_eq_true_eq]
  rw [if_neg (by simp)]
  rw [List.filter_eq_self.2 (fun k hk => by simpa using h1 k hk),
    List.filter_eq_self.2 (fun k hk => by simpa using h2 k hk)]

/-- Members with equal images under a function whose map is `Nodup` are
equal. -/
theorem nodup_map_inj {f : ConnectionType → Nat} {l : List ConnectionType}
    (hnd : (l.map f).Nodup) {a b : ConnectionType} (ha : a ∈ l) (hb : b ∈ l)
    (hf : f a = f b) : a = b :=
  List.inj_on_of_nodup_map hnd ha hb hf

/-- Surjectivity of poll indices onto the occupied prefix `1 .. nextFree-1`:
a counting argument from uniqueness, bounds, and the size equation. -/
theorem inv_index_surj (st : ServerSt) (hInv : ServerInv st) :
    ∀ i, 1 ≤ i → i < st.nextFreePollStructIndex →
      ∃ k ∈ st.registry, k.pollStructIndex = i := by
  obtain ⟨-, -, -, hcount, -, -, hidxnd, hbounds, -, -⟩ := hInv
  intro i h1 h2
  set l := st.registry.map (fun k => k.pollStructIndex) with hl
  have hsub : l.toFinset ⊆ Finset.Ico 1 st.nextFreePollStructIndex := by
    intro x hx
    rw [List.mem_toFinset] at hx
    obtain ⟨k, hk, rfl⟩ := List.mem_map.1 hx
    exact Finset.mem_Ico.2 ⟨(hbounds k hk).1, (hbounds k hk).2⟩
  have hcard : (Finset.Ico 1 st.nextFreePollStructIndex).card ≤ l.toFinset.card := by
    rw [List.toFinset_card_of_nodup hidxnd]
    simp only [hl, List.length_map]
    rw [Nat.card_Ico]
    omega
  have heq := Finset.eq_of_subset_of_card_le hsub hcard
  have hi : i ∈ l.toFinset := by
    rw [heq]
    exact Finset.mem_Ico.2 ⟨h1, h2⟩
  rw [List.mem_toFinset, hl, List.mem_map] at hi
  obtain ⟨k, hk, hki⟩ := hi
  exact ⟨k, hk, hki⟩

/-- The structural invariant implies the counting property of claim C2. -/
theorem inv_tableOk (st : ServerSt) (hInv : ServerInv st) : tableOk st := by
  refine ⟨hInv.2.2.2.1, ?_⟩
  intro i hi h1
  obtain ⟨k, hk, hki⟩ := inv_index_surj st hInv i h1 (List.mem_range.1 hi)
  obtain ⟨-, -, -, -, -, -, -, -, hslots, -, -⟩ := hInv
  exact ⟨k, hk, hki, hki ▸ (hslots k hk).1, (hslots k hk).2⟩

/-- State of `closeConnection` after detaching `c` and running the swap step,
relative to the original state `st`: the registry has lost exactly the node
`c`, every surviving node keeps its fields up to the possible slot
displacement, all indices now lie strictly below `nextFree - 1`, and every
surviving node's slot still holds its descriptor. -/
structure MidClose (st : ServerSt) (c : ConnectionType) (st2 : ServerSt) : Prop where
  len_eq : st2.pollStruct.length = st.pollStruct.length
  size_eq : st2.pollStructSize = st.pollStructSize
  nf_eq : st2.nextFreePollStructIndex = st.nextFreePollStructIndex
  listen_eq : st2.listeningSocket = st.listeningSocket
  nextId_eq : st2.nextId = st.nextId
  chatLog_eq : st2.chatLog = st.chatLog
  chatLogExists_eq : st2.chatLogExists = st.chatLogExists
  netSent_eq : st2.netSent = st.netSent
  badFd_eq : st2.badFdWrite = st.badFdWrite
  nulOob_eq : st2.nulOutOfBounds = st.nulOutOfBounds
  reg_len : st2.registry.length + 1 = st.registry.length
  no_c : ∀ k' ∈ st2.registry, k'.id ≠ c.id
  ids_nd : (st2.registry.map (fun k => k.id)).Nodup
  idx_nd : (st2.registry.map (fun k => k.pollStructIndex)).Nodup
  ids_lt : ∀ k' ∈ st2.registry, k'.id < st.nextId
  idx_bounds : ∀ k' ∈ st2.registry, 1 ≤ k'.pollStructIndex ∧
    k'.pollStructIndex + 1 < st.nextFreePollStructIndex
  slots : ∀ k' ∈ st2.registry,
    (getSlot st2 k'.pollStructIndex).fd = k'.socketFd ∧ 0 < k'.socketFd
  slot0 : (getSlot st2 0).fd = st.listeningSocket
  from_old : ∀ k' ∈ st2.registry, ∃ k ∈ st.registry, k.id = k'.id ∧ eqExceptIndex k k'
  to_new : ∀ k ∈ st.registry, k.id ≠ c.id →
    ∃ k' ∈ st2.registry, k'.id = k.id ∧ eqExceptIndex k k'

theorem closeTail_spec (st : ServerSt) (c : ConnectionType) (st2 : ServerSt)
    (hInv : ServerInv st) (hc : c ∈ st.registry) (hmid : MidClose st c st2) :
    ServerInv (closeTail st.nextFreePollStructIndex st2) ∧
    (closeTail st.nextFreePollStructIndex st2).registry = st2.registry ∧
    (closeTail st.nextFreePollStructIndex st2).nextFreePollStructIndex =
      st.nextFreePollStructIndex - 1 ∧
    (∀ j, j + 1 < st.nextFreePollStructIndex →
      getSlot (closeTail st.nextFreePollStructIndex st2) j = getSlot st2 j) ∧
    getSlot (closeTail st.nextFreePollStructIndex st2)
      (st.nextFreePollStructIndex - 1) = zeroPollfd ∧
    (closeTail st.nextFreePollStructIndex st2).chatLog = st.chatLog ∧
    (closeTail st.nextFreePollStructIndex st2).chatLogExists = st.chatLogExists ∧
    (closeTail st.nextFreePollStructIndex st2).netSent = st.netSent ∧
    (closeTail st.nextFreePollStructIndex st2).badFdWrite = st.badFdWrite ∧
    (closeTail st.nextFreePollStructIndex st2).nulOutOfBounds = st.nulOutOfBounds ∧
    (closeTail st.nextFreePollStructIndex st2).nextId = st.nextId ∧
    (closeTail st.nextFreePollStructIndex st2).listeningSocket = st.listeningSocket := by
  obtain ⟨hsz, hnf1, hnfle, hcount, hidnd, hidlt, hixnd, hbounds, hslots, hslot0, hlpos⟩ := hInv
  have hlen1 : 1 ≤ st.registry.length := List.length_pos_of_mem hc
  have hnf2 : 2 ≤ st.nextFreePollStructIndex := by omega
  set nf := st.nextFreePollStructIndex with hnfdef
  set st3 := setSlot { st2 with nextFreePollStructIndex := nf - 1 } (nf - 1) zeroPollfd
    with hst3
  have hst3len : st3.pollStruct.length = st.pollStruct.length := by
    show (st2.pollStruct.set (nf - 1) zeroPollfd).length = st.pollStruct.length
    rw [List.length_set]
    exact hmid.len_eq
  have hst3size : st3.pollStructSize = st.pollStruct.length := by
    show st2.pollStructSize = st.pollStruct.length
    rw [hmid.size_eq, hsz]
  have hget3 : ∀ j, j + 1 < nf → getSlot st3 j = getSlot st2 j := by
    intro j hj
    have hne : nf - 1 ≠ j := by omega
    exact getD_set_ne _ _ _ _ _ hne
  have hget3last : getSlot st3 (nf - 1) = zeroPollfd := by
    have hb : nf - 1 < st2.pollStruct.length := by
      rw [hmid.len_eq]
      omega
    exact getD_set_self _ _ _ _ hb
  have hreg3 : st3.registry = st2.registry := rfl
  have hregLen2 : st2.registry.length + 1 = st.registry.length := hmid.reg_len
  have hmain : ∀ st4 : ServerSt, st4.registry = st2.registry →
      st4.pollStructSize = st4.pollStruct.length →
      st4.nextFreePollStructIndex = nf - 1 →
      st4.nextId = st.nextId → st4.listeningSocket = st.listeningSocket →
      (∀ j, j < nf → getSlot st4 j = getSlot st3 j) →
      nf - 1 ≤ st4.pollStruct.length →
      ServerInv st4 := by
    intro st4 h4reg h4sz h4nf h4id h4listen h4get h4le
    refine ⟨h4sz, by omega, by rw [h4nf]; exact h4le, ?_, ?_, ?_, ?_, ?_, ?_, ?_, ?_⟩
    · rw [h4nf, h4reg]
      omega
    · rw [h4reg]
      exact hmid.ids_nd
    · intro k hk
      rw [h4reg] at hk
      rw [h4id]
      exact hmid.ids_lt k hk
    · rw [h4reg]
      exact hmid.idx_nd
    · intro k hk
      rw [h4reg] at hk
      have hb := hmid.idx_bounds k hk
      exact ⟨hb.1, by rw [h4nf]; omega⟩
    · intro k hk
      rw [h4reg] at hk
      have hb := hmid.idx_bounds k hk
      have hlt : k.pollStructIndex < nf := by omega
      rw [h4get _ hlt, hget3 _ hb.2]
      exact hmid.slots k hk
    · rw [h4get 0 (by omega), hget3 0 (by omega), h4listen]
      exact hmid.slot0
    · rw [h4listen]
      exact hlpos
  have htail : closeTail nf st2 =
      (if nf - 1 - 1 + 2 + FREE_SLOTS_TO_DOWNSIZE_POLLSTRUCT < st3.pollStructSize then
        resizePollStruct false st3 else st3) := rfl
  by_cases hds : nf - 1 - 1 + 2 + FREE_SLOTS_TO_DOWNSIZE_POLLSTRUCT < st3.pollStructSize
  · rw [htail, if_pos hds]
    have h3nf : st3.nextFreePollStructIndex = nf - 1 := rfl
    have hnewSize : (resizePollStruct false st3).pollStruct.length =
        nf - 1 - 1 + 2 + INITIAL_FREE_SLOTS_IN_POLLSTRUCT := by
      rw [resize_length, h3nf]
      simp
    have hgetr : ∀ j, j < nf → getSlot (resizePollStruct false st3) j = getSlot st3 j := by
      intro j hj
      refine getSlot_resize_lt false st3 j ?_ ?_
      · rw [h3nf]
        simp only [INITIAL_FREE_SLOTS_IN_POLLSTRUCT]
        omega
      · rw [hst3len]
        omega
    refine ⟨?_, rfl, rfl, ?_, ?_, hmid.chatLog_eq, hmid.chatLogExists_eq,
      hmid.netSent_eq, hmid.badFd_eq, hmid.nulOob_eq, hmid.nextId_eq, hmid.listen_eq⟩
    · refine hmain (resizePollStruct false st3) rfl (resize_size_eq false st3) rfl
        hmid.nextId_eq hmid.listen_eq hgetr ?_
      rw [hnewSize]
      simp only [INITIAL_FREE_SLOTS_IN_POLLSTRUCT]
      omega
    · intro j hj
      rw [hgetr j (by omega)]
      exact hget3 j hj
    · rw [hgetr (nf - 1) (by omega)]
      exact hget3last
  · rw [htail, if_neg hds]
    refine ⟨?_, rfl, rfl, hget3, hget3last, hmid.chatLog_eq, hmid.chatLogExists_eq,
      hmid.netSent_eq, hmid.badFd_eq, hmid.nulOob_eq, hmid.nextId_eq, hmid.listen_eq⟩
    refine hmain st3 rfl ?_ rfl hmid.nextId_eq hmid.listen_eq (fun j _ => rfl) ?_
    · rw [hst3size, hst3len]
    · rw [hst3len]
      omega

theorem eqExceptIndex_refl (k : ConnectionType) : eqExceptIndex k k := rfl

theorem closeSwap_spec (st : ServerSt) (c : ConnectionType)
    (hInv : ServerInv st) (hc : c ∈ st.registry) :
    ∃ st2, closeSwap st.nextFreePollStructIndex c
        { st with registry := st.registry.filter (fun k => k.id ≠ c.id) } = Except.ok st2 ∧
      MidClose st c st2 ∧
      (c.pollStructIndex + 1 ≠ st.nextFreePollStructIndex →
        ∃ conIt ∈ st.registry, conIt ≠ c ∧
          conIt.pollStructIndex + 1 = st.nextFreePollStructIndex ∧
          (∀ k ∈ st.registry, k.pollStructIndex + 1 = st.nextFreePollStructIndex →
            k = conIt) ∧
          getSlot st2 c.pollStructIndex = getSlot st (st.nextFreePollStructIndex - 1) ∧
          (∃ k' ∈ st2.registry, k'.id = conIt.id ∧
            k'.pollStructIndex = c.pollStructIndex ∧ eqExceptIndex conIt k')) := by
  have hInv0 := hInv
  obtain ⟨hsz, hnf1, hnfle, hcount, hidnd, hidlt, hixnd, hbounds, hslots, hslot0, hlpos⟩ := hInv
  have hlen1 : 1 ≤ st.registry.length := List.length_pos_of_mem hc
  have hnf2 : 2 ≤ st.nextFreePollStructIndex := by omega
  set nf := st.nextFreePollStructIndex with hnfdef
  set R1 := st.registry.filter (fun k => k.id ≠ c.id) with hR1def
  obtain ⟨l1, l2, hdec, hfilter, hl1, hl2⟩ :=
    registry_filter_split st.registry c hidnd hc
  have hR1sub : ∀ k ∈ R1, k ∈ st.registry := fun k hk => (List.mem_filter.1 hk).1
  have hR1ne : ∀ k ∈ R1, k.id ≠ c.id := by
    intro k hk
    have := (List.mem_filter.1 hk).2
    simpa using this
  have hmemR1 : ∀ k ∈ st.registry, k.id ≠ c.id → k ∈ R1 := by
    intro k hk hne
    exact List.mem_filter.2 ⟨hk, by simpa using hne⟩
  have hR1ids : (R1.map (fun k => k.id)).Nodup :=
    hidnd.sublist ((List.filter_sublist _).map _)
  have hR1idx : (R1.map (fun k => k.pollStructIndex)).Nodup :=
    hixnd.sublist ((List.filter_sublist _).map _)
  have hR1len : R1.length + 1 = st.registry.length := by
    rw [hR1def, hfilter, hdec]
    simp
    omega
  have hR1noidx : ∀ x ∈ R1, x.pollStructIndex ≠ c.pollStructIndex := by
    intro x hx he
    exact hR1ne x hx (congrArg (fun k => k.id)
      (nodup_map_inj hixnd (hR1sub x hx) hc he))
  by_cases hcase : c.pollStructIndex = nf - 1
  · -- the closed connection owns the last occupied slot: no swap needed
    refine ⟨{ st with registry := R1 }, ?_, ?_, ?_⟩
    · show closeSwap nf c { st with registry := R1 } = _
      unfold closeSwap
      rw [if_neg (fun h => h hcase)]
    · refine ⟨rfl, rfl, rfl, rfl, rfl, rfl, rfl, rfl, rfl, rfl, hR1len, hR1ne,
        hR1ids, hR1idx, ?_, ?_, ?_, hslot0, ?_, ?_⟩
      · exact fun k hk => hidlt k (hR1sub k hk)
      · intro k hk
        have hb := hbounds k (hR1sub k hk)
        have hne : k.pollStructIndex ≠ nf - 1 := fun he => by
          exact hR1noidx k hk (by rw [he, hcase])
        exact ⟨hb.1, by omega⟩
      · intro k hk
        exact hslots k (hR1sub k hk)
      · intro k' hk'
        exact ⟨k', hR1sub k' hk', rfl, eqExceptIndex_refl k'⟩
      · intro k hk hne
        exact ⟨k, hmemR1 k hk hne, rfl, eqExceptIndex_refl k⟩
    · intro hne
      exact absurd (by omega : c.pollStructIndex + 1 = nf) hne
  · -- swap the last occupied slot into the vacated position
    obtain ⟨u, humem, huidx⟩ := inv_index_surj st hInv0 (nf - 1) (by omega) (by omega)
    have hune : u ≠ c := fun he => hcase (by rw [← he]; exact huidx)
    have huid : u.id ≠ c.id := fun he => hune (nodup_map_inj hidnd humem hc he)
    have huR1 : u ∈ R1 := hmemR1 u humem huid
    cases hfind : R1.reverse.find? (fun k => decide (k.pollStructIndex = nf - 1)) with
    | none =>
      exfalso
      have := List.find?_eq_none.1 hfind u (List.mem_reverse.2 huR1)
      simp [huidx] at this
    | some conIt =>
      have hp : conIt.pollStructIndex = nf - 1 := by
        have := List.find?_some hfind
        simpa using this
      have hconR1 : conIt ∈ R1 := List.mem_reverse.1 (List.mem_of_find?_eq_some hfind)
      have hconMem : conIt ∈ st.registry := hR1sub _ hconR1
      have hconid : conIt.id ≠ c.id := hR1ne _ hconR1
      have hcidxlt : c.pollStructIndex < nf := (hbounds c hc).2
      have hcidx1 : 1 ≤ c.pollStructIndex := (hbounds c hc).1
      have hcidxlen : c.pollStructIndex < st.pollStruct.length := by omega
      set g : ConnectionType → ConnectionType := fun k =>
        if k.id = conIt.id then { k with pollStructIndex := c.pollStructIndex } else k
        with hgdef
      have gid : ∀ k, (g k).id = k.id := by
        intro k
        simp only [hgdef]
        by_cases hk : k.id = conIt.id
        · rw [if_pos hk]
        · rw [if_neg hk]
      have gsock : ∀ k, (g k).socketFd = k.socketFd := by
        intro k
        simp only [hgdef]
        by_cases hk : k.id = conIt.id
        · rw [if_pos hk]
        · rw [if_neg hk]
      have hgetA : ∀ j, j ≠ c.pollStructIndex →
            getSlot (setSlot { st with registry := R1 } c.pollStructIndex
              (getSlot { st with registry := R1 } conIt.pollStructIndex)) j =
            getSlot st j := by
          intro j hj
          exact getD_set_ne _ _ _ _ _ (fun he => hj he.symm)
      have hgetAc :
            getSlot (setSlot { st with registry := R1 } c.pollStructIndex
              (getSlot { st with registry := R1 } conIt.pollStructIndex))
              c.pollStructIndex = getSlot st conIt.pollStructIndex := by
          exact getD_set_self _ _ _ _ hcidxlen
      refine ⟨updateConn (setSlot { st with registry := R1 } c.pollStructIndex
          (getSlot { st with registry := R1 } conIt.pollStructIndex)) conIt.id
          (fun k => { k with pollStructIndex := c.pollStructIndex }), ?_, ?_, ?_⟩
      · show closeSwap nf c { st with registry := R1 } = _
        unfold closeSwap
        rw [if_pos hcase]
        have hreg : ({ st with registry := R1 } : ServerSt).registry = R1 := rfl
        rw [hreg, hfind]
      · refine ⟨?_, rfl, rfl, rfl, rfl, rfl, rfl, rfl, rfl, rfl, ?_, ?_, ?_, ?_,
          ?_, ?_, ?_, ?_, ?_, ?_⟩
        · show (st.pollStruct.set c.pollStructIndex _).length = st.pollStruct.length
          rw [List.length_set]
        · show (R1.map g).length + 1 = st.registry.length
          rw [List.length_map]
          exact hR1len
        · intro k' hk'
          obtain ⟨k, hk, rfl⟩ := List.mem_map.1 hk'
          rw [gid]
          exact hR1ne k hk
        · show ((R1.map g).map (fun k => k.id)).Nodup
          rw [List.map_map]
          have : ((fun k => k.id) ∘ g) = (fun k : ConnectionType => k.id) :=
            funext fun k => gid k
          rw [this]
          exact hR1ids
        · show ((R1.map g).map (fun k => k.pollStructIndex)).Nodup
          rw [List.map_map]
          have hR1nd : R1.Nodup := List.Nodup.of_map _ hR1ids
          refine List.Nodup.map_on ?_ hR1nd
          intro x hx y hy hxy
          simp only [Function.comp, hgdef] at hxy
          by_cases hxi : x.id = conIt.id <;> by_cases hyi : y.id = conIt.id
          · exact nodup_map_inj hR1ids hx hy (by rw [hxi, hyi])
          · rw [if_pos hxi, if_neg hyi] at hxy
            exact absurd hxy.symm (hR1noidx y hy)
          · rw [if_neg hxi, if_pos hyi] at hxy
            exact absurd hxy (hR1noidx x hx)
          · rw [if_neg hxi, if_neg hyi] at hxy
            exact nodup_map_inj hixnd (hR1sub x hx) (hR1sub y hy) hxy
        · intro k' hk'
          obtain ⟨k, hk, rfl⟩ := List.mem_map.1 hk'
          rw [gid]
          exact hidlt k (hR1sub k hk)
        · intro k' hk'
          obtain ⟨k, hk, rfl⟩ := List.mem_map.1 hk'
          simp only [hgdef]
          by_cases hki : k.id = conIt.id
          · rw [if_pos hki]
            show 1 ≤ c.pollStructIndex ∧ c.pollStructIndex + 1 < nf
            exact ⟨hcidx1, by omega⟩
          · rw [if_neg hki]
            have hb := hbounds k (hR1sub k hk)
            have hne : k.pollStructIndex ≠ nf - 1 := by
              intro he
              exact hki (congrArg (fun x => x.id)
                (nodup_map_inj hixnd (hR1sub k hk) hconMem (by rw [he, hp])))
            exact ⟨hb.1, by omega⟩
        · intro k' hk'
          obtain ⟨k, hk, rfl⟩ := List.mem_map.1 hk'
          simp only [hgdef]
          by_cases hki : k.id = conIt.id
          · rw [if_pos hki]
            have hkcon : k = conIt := nodup_map_inj hR1ids hk hconR1 hki
            constructor
            · show (getSlot (updateConn _ _ _) c.pollStructIndex).fd = k.socketFd
              rw [getSlot_updateConn, hgetAc, hkcon]
              exact (hslots conIt hconMem).1
            · rw [hkcon]
              exact (hslots conIt hconMem).2
          · rw [if_neg hki]
            constructor
            · show (getSlot (updateConn _ _ _) k.pollStructIndex).fd = k.socketFd
              rw [getSlot_updateConn, hgetA _ (hR1noidx k hk)]
              exact (hslots k (hR1sub k hk)).1
            · exact (hslots k (hR1sub k hk)).2
        · show (getSlot (updateConn _ _ _) 0).fd = st.listeningSocket
          rw [getSlot_updateConn, hgetA 0 (by omega)]
          exact hslot0
        · intro k' hk'
          obtain ⟨k, hk, rfl⟩ := List.mem_map.1 hk'
          refine ⟨k, hR1sub k hk, (gid k).symm, ?_⟩
          simp only [hgdef]
          by_cases hki : k.id = conIt.id
          · rw [if_pos hki]
            rfl
          · rw [if_neg hki]
            exact eqExceptIndex_refl k
        · intro k hk hne
          refine ⟨g k, List.mem_map_of_mem g (hmemR1 k hk hne), gid k, ?_⟩
          simp only [hgdef]
          by_cases hki : k.id = conIt.id
          · rw [if_pos hki]
            rfl
          · rw [if_neg hki]
            exact eqExceptIndex_refl k
      · intro hne
        refine ⟨conIt, hconMem, ?_, by omega, ?_, ?_, ?_⟩
        · intro he
          exact hconid (by rw [he])
        · intro k hk hk1
          have : k.pollStructIndex = nf - 1 := by omega
          exact nodup_map_inj hixnd hk hconMem (by rw [this, hp])
        · show getSlot (updateConn _ _ _) c.pollStructIndex = getSlot st (nf - 1)
          rw [getSlot_updateConn, hgetAc, hp]
        · refine ⟨g conIt, List.mem_map_of_mem g hconR1, gid conIt, ?_, ?_⟩
          · simp [hgdef]
          · simp [hgdef, eqExceptIndex]

theorem closeConnection_spec (st : ServerSt) (c : ConnectionType)
    (hInv : ServerInv st) (hc : c ∈ st.registry) :
    ∃ st', closeConnection st c = Except.ok st' ∧
      ServerInv st' ∧
      st'.nextFreePollStructIndex + 1 = st.nextFreePollStructIndex ∧
      st'.registry.length + 1 = st.registry.length ∧
      (∀ k' ∈ st'.registry, k'.id ≠ c.id) ∧
      (∀ k ∈ st.registry, k.id ≠ c.id →
        ∃ k' ∈ st'.registry, k'.id = k.id ∧ eqExceptIndex k k') ∧
      (∀ k' ∈ st'.registry, ∃ k ∈ st.registry, k.id = k'.id ∧ eqExceptIndex k k') ∧
      st'.chatLog = st.chatLog ∧ st'.chatLogExists = st.chatLogExists ∧
      st'.netSent = st.netSent ∧ st'.badFdWrite = st.badFdWrite ∧
      st'.nulOutOfBounds = st.nulOutOfBounds ∧ st'.nextId = st.nextId ∧
      st'.listeningSocket = st.listeningSocket ∧
      getSlot st' (st.nextFreePollStructIndex - 1) = zeroPollfd ∧
      (c.pollStructIndex + 1 ≠ st.nextFreePollStructIndex →
        ∃ conIt ∈ st.registry, conIt ≠ c ∧
          conIt.pollStructIndex + 1 = st.nextFreePollStructIndex ∧
          (∀ k ∈ st.registry, k.pollStructIndex + 1 = st.nextFreePollStructIndex →
            k = conIt) ∧
          getSlot st' c.pollStructIndex = getSlot st (st.nextFreePollStructIndex - 1) ∧
          (∃ k' ∈ st'.registry, k'.id = conIt.id ∧
            k'.pollStructIndex = c.pollStructIndex ∧ eqExceptIndex conIt k')) := by
  have hInv0 := hInv
  obtain ⟨hsz, hnf1, hnfle, hcount, hidnd, hidlt, hixnd, hbounds, hslots, hslot0, hlpos⟩ :=
    hInv0
  obtain ⟨st2, hswap, hmid, hswapfacts⟩ := closeSwap_spec st c hInv hc
  obtain ⟨hi, hreg, hnf, hget, hlast, hcl, hcle, hns, hbf, hno, hnid, hlis⟩ :=
    closeTail_spec st c st2 hInv hc hmid
  have hlen1 : 1 ≤ st.registry.length := List.length_pos_of_mem hc
  refine ⟨closeTail st.nextFreePollStructIndex st2, ?_, hi, ?_, ?_, ?_, ?_, ?_,
    hcl, hcle, hns, hbf, hno, hnid, hlis, hlast, ?_⟩
  · unfold closeConnection
    rw [hswap]
  · rw [hnf]
    omega
  · rw [hreg]
    have := hmid.reg_len
    omega
  · rw [hreg]
    exact hmid.no_c
  · intro k hk hne
    obtain ⟨k', hk', hkid, hkeq⟩ := hmid.to_new k hk hne
    exact ⟨k', by rw [hreg]; exact hk', hkid, hkeq⟩
  · intro k' hk'
    rw [hreg] at hk'
    exact hmid.from_old k' hk'
  · intro hne
    obtain ⟨conIt, hconMem, hconne, hcon1, huniq, hslotcopy, k', hk', hkid, hkidx, hkeq⟩ :=
      hswapfacts hne
    have hcb := hbounds c hc
    refine ⟨conIt, hconMem, hconne, hcon1, huniq, ?_, ?_⟩
    · rw [hget c.pollStructIndex (by omega)]
      exact hslotcopy
    · exact ⟨k', by rw [hreg]; exact hk', hkid, hkidx, hkeq⟩

theorem strcpyAt_length (dst : List Byte) (off : Nat) (src : List Byte) :
    (strcpyAt dst off src).length = dst.length := by
  simp [strcpyAt]
  omega

theorem writeBytesAt_length (dst : List Byte) (off : Nat) (src : List Byte) :
    (writeBytesAt dst off src).length = dst.length := by
  simp [writeBytesAt]
  omega

/-- `bufferHeaders` only rewrites the buffer contents and the two cursors;
every identifying field of the connection survives. -/
theorem bufferHeaders_frame (t : Tm) (c : ConnectionType) (code : Nat)
    (c' : ConnectionType) (h : bufferHeaders t c code = Except.ok c') :
    c'.id = c.id ∧ c'.status = c.status ∧ c'.socketFd = c.socketFd ∧
    c'.pollStructIndex = c.pollStructIndex ∧ c'.bufferSize = c.bufferSize ∧
    c'.buffer.length = c.buffer.length ∧ c'.fileFd = c.fileFd ∧
    c'.body = c.body ∧ c'.contentLength = c.contentLength := by
  unfold bufferHeaders at h
  by_cases h200 : code = 200
  · rw [if_pos h200] at h
    dsimp only at h
    split at h
    · exact absurd h (by simp)
    · split at h
      · exact absurd h (by simp)
      · rw [Except.ok.injEq] at h
        subst h
        refine ⟨rfl, rfl, rfl, rfl, rfl, ?_, rfl, rfl, rfl⟩
        show (strcpyAt _ _ _).length = c.buffer.length
        rw [strcpyAt_length, strcpyAt_length, strcpyAt_length]
  · rw [if_neg h200] at h
    by_cases h404 : code = 404
    · rw [if_pos h404] at h
      dsimp only at h
      split at h
      · exact absurd h (by simp)
      · rw [Except.ok.injEq] at h
        subst h
        refine ⟨rfl, rfl, rfl, rfl, rfl, ?_, rfl, rfl, rfl⟩
        show (strcpyAt _ _ _).length = c.buffer.length
        rw [strcpyAt_length, strcpyAt_length]
    · rw [if_neg h404, Except.ok.injEq] at h
      subst h
      exact ⟨rfl, rfl, rfl, rfl, rfl, rfl, rfl, rfl, rfl⟩

/-- Pointwise node mutation preserves the structural invariant as long as the
mutated node keeps its identity, slot index and descriptor. -/
theorem updateConn_inv (st : ServerSt) (cid : Nat) (f : ConnectionType → ConnectionType)
    (hf : ∀ k ∈ st.registry, k.id = cid → (f k).id = k.id ∧
      (f k).pollStructIndex = k.pollStructIndex ∧ (f k).socketFd = k.socketFd)
    (hInv : ServerInv st) : ServerInv (updateConn st cid f) := by
  obtain ⟨hsz, hnf1, hnfle, hcount, hidnd, hidlt, hixnd, hbounds, hslots, hslot0, hlpos⟩ :=
    hInv
  set g : ConnectionType → ConnectionType := fun k => if k.id = cid then f k else k
    with hgdef
  have gid : ∀ k ∈ st.registry, (g k).id = k.id := by
    intro k hk
    simp only [hgdef]
    by_cases hki : k.id = cid
    · rw [if_pos hki]
      exact (hf k hk hki).1
    · rw [if_neg hki]
  have gidx : ∀ k ∈ st.registry, (g k).pollStructIndex = k.pollStructIndex := by
    intro k hk
    simp only [hgdef]
    by_cases hki : k.id = cid
    · rw [if_pos hki]
      exact (hf k hk hki).2.1
    · rw [if_neg hki]
  have gsock : ∀ k ∈ st.registry, (g k).socketFd = k.socketFd := by
    intro k hk
    simp only [hgdef]
    by_cases hki : k.id = cid
    · rw [if_pos hki]
      exact (hf k hk hki).2.2
    · rw [if_neg hki]
  have hreg : (updateConn st cid f).registry = st.registry.map g := rfl
  refine ⟨hsz, hnf1, hnfle, ?_, ?_, ?_, ?_, ?_, ?_, hslot0, hlpos⟩
  · rw [hreg, List.length_map]
    exact hcount
  · have hmapid : st.registry.map ((fun k => k.id) ∘ g) =
        st.registry.map (fun k => k.id) :=
      List.map_congr_left (fun k hk => gid k hk)
    rw [hreg, List.map_map, hmapid]
    exact hidnd
  · intro k' hk'
    rw [hreg] at hk'
    obtain ⟨k, hk, rfl⟩ := List.mem_map.1 hk'
    rw [gid k hk]
    exact hidlt k hk
  · have hmapidx : st.registry.map ((fun k => k.pollStructIndex) ∘ g) =
        st.registry.map (fun k => k.pollStructIndex) :=
      List.map_congr_left (fun k hk => gidx k hk)
    rw [hreg, List.map_map, hmapidx]
    exact hixnd
  · intro k' hk'
    rw [hreg] at hk'
    obtain ⟨k, hk, rfl⟩ := List.mem_map.1 hk'
    rw [gidx k hk]
    exact hbounds k hk
  · intro k' hk'
    rw [hreg] at hk'
    obtain ⟨k, hk, rfl⟩ := List.mem_map.1 hk'
    rw [gidx k hk, gsock k hk]
    exact hslots k hk

theorem getD_set_fd (l : List Pollfd) (i j : Nat) (p : Pollfd)
    (hfd : p.fd = (l.getD i zeroPollfd).fd) :
    ((l.set i p).getD j zeroPollfd).fd = (l.getD j zeroPollfd).fd := by
  by_cases hij : i = j
  · subst hij
    by_cases hl : i < l.length
    · rw [getD_set_self _ _ _ _ hl, hfd]
    · rw [List.getD_eq_default _ _ (by rw [List.length_set]; omega),
        List.getD_eq_default _ _ (by omega)]
  · rw [getD_set_ne _ _ _ _ _ hij]

/-- Rearming a slot's interest mask never changes descriptors, so the
structural invariant survives. -/
theorem setSlotEvents_inv (st : ServerSt) (i e : Nat) (hInv : ServerInv st) :
    ServerInv (setSlotEvents st i e) := by
  obtain ⟨hsz, hnf1, hnfle, hcount, hidnd, hidlt, hixnd, hbounds, hslots, hslot0, hlpos⟩ :=
    hInv
  have hfd : ∀ j, (getSlot (setSlotEvents st i e) j).fd = (getSlot st j).fd := by
    intro j
    exact getD_set_fd st.pollStruct i j _ rfl
  have hlen : (setSlotEvents st i e).pollStruct.length = st.pollStruct.length :=
    List.length_set _ _ _
  refine ⟨by rw [hlen]; exact hsz, hnf1, by rw [hlen]; exact hnfle, hcount, hidnd,
    hidlt, hixnd, hbounds, ?_, ?_, hlpos⟩
  · intro k hk
    rw [hfd]
    exact hslots k hk
  · rw [hfd]
    exact hslot0

/-- A snapshot node `u` is compatible with the current state when every
registry node carrying its identity (in fact the node itself) still has its
slot index and descriptor: the C walk reads these fields through the live
pointer. -/
def compat (st : ServerSt) (u : ConnectionType) : Prop :=
  ∀ k ∈ st.registry, k.id = u.id →
    k.pollStructIndex = u.pollStructIndex ∧ k.socketFd = u.socketFd

theorem inv_compat_self (st : ServerSt) (hInv : ServerInv st) :
    ∀ u ∈ st.registry, compat st u := by
  intro u hu k hk hid
  have : k = u := nodup_map_inj hInv.2.2.2.2.1 hk hu hid
  rw [this]
  exact ⟨rfl, rfl⟩

theorem updateConn_mem_self (st : ServerSt) (c : ConnectionType)
    (f : ConnectionType → ConnectionType) (hc : c ∈ st.registry) :
    f c ∈ (updateConn st c.id f).registry := by
  have hgc : (fun k => if k.id = c.id then f k else k) c = f c := by
    show (if c.id = c.id then f c else c) = f c
    rw [if_pos rfl]
  have := List.mem_map_of_mem (fun k => if k.id = c.id then f k else k) hc
  rw [hgc] at this
  exact this

theorem distributeStep_inv (nd : Bool) (t : Tm) (st : ServerSt) (conIt : ConnectionType)
    (hInv : ServerInv st) (hcompat : compat st conIt) :
    ∀ st', distributeStep nd t st conIt = Except.ok st' →
      ServerInv st' ∧ st'.chatLogExists = st.chatLogExists ∧
      (∀ u, compat st u → compat st' u) := by
  intro st' h
  unfold distributeStep at h
  split at h
  case isTrue hrecv =>
    cases hbh : bufferHeaders t conIt 200 with
    | error e =>
      rw [hbh] at h
      exact absurd h (by simp)
    | ok c1 =>
      rw [hbh] at h
      dsimp only at h
      obtain ⟨hid, hstc, hsock, hidx, hbs, hbl, hff, hbd, hcl⟩ :=
        bufferHeaders_frame _ _ _ _ hbh
      have hmain : ∀ fr : FileRef,
          ServerInv (setSlotEvents (updateConn st conIt.id (fun _ =>
            { c1 with
              fileFd := fr
              status := statusType.statusOutgoingAnswer }))
            ({ c1 with
              fileFd := fr
              status := statusType.statusOutgoingAnswer } :
              ConnectionType).pollStructIndex POLLOUT) ∧
          (setSlotEvents (updateConn st conIt.id (fun _ =>
            { c1 with
              fileFd := fr
              status := statusType.statusOutgoingAnswer }))
            ({ c1 with
              fileFd := fr
              status := statusType.statusOutgoingAnswer } :
              ConnectionType).pollStructIndex POLLOUT).chatLogExists = st.chatLogExists ∧
          (∀ u, compat st u →
            compat (setSlotEvents (updateConn st conIt.id (fun _ =>
              { c1 with
                fileFd := fr
                status := statusType.statusOutgoingAnswer }))
              ({ c1 with
                fileFd := fr
                status := statusType.statusOutgoingAnswer } :
                ConnectionType).pollStructIndex POLLOUT) u) := by
        intro fr
        have hf : ∀ k ∈ st.registry, k.id = conIt.id →
            ({ c1 with
              fileFd := fr
              status := statusType.statusOutgoingAnswer } : ConnectionType).id = k.id ∧
            ({ c1 with
              fileFd := fr
              status := statusType.statusOutgoingAnswer } :
              ConnectionType).pollStructIndex = k.pollStructIndex ∧
            ({ c1 with
              fileFd := fr
              status := statusType.statusOutgoingAnswer } :
              ConnectionType).socketFd = k.socketFd := by
          intro k hk hki
          obtain ⟨hx, hy⟩ := hcompat k hk hki
          refine ⟨?_, ?_, ?_⟩
          · show c1.id = k.id
            rw [hid, hki]
          · show c1.pollStructIndex = k.pollStructIndex
            rw [hidx, hx]
          · show c1.socketFd = k.socketFd
            rw [hsock, hy]
        refine ⟨setSlotEvents_inv _ _ _ (updateConn_inv st conIt.id _ hf hInv), rfl, ?_⟩
        intro u hu k' hk' hk'u
        obtain ⟨k, hk, rfl⟩ := List.mem_map.1 hk'
        by_cases hki : k.id = conIt.id
        · have hgk : (if k.id = conIt.id then
              ({ c1 with
                fileFd := fr
                status := statusType.statusOutgoingAnswer } : ConnectionType) else k) =
              { c1 with
                fileFd := fr
                status := statusType.statusOutgoingAnswer } := by
            rw [if_pos hki]
          rw [hgk] at hk'u ⊢
          have hcu : k.id = u.id := by
            rw [hki]
            show conIt.id = u.id
            rw [← hid]
            exact hk'u
          obtain ⟨hx0, hy0⟩ := hu k hk hcu
          obtain ⟨hx1, hy1⟩ := hcompat k hk hki
          constructor
          · show c1.pollStructIndex = u.pollStructIndex
            rw [hidx, ← hx1, hx0]
          · show c1.socketFd = u.socketFd
            rw [hsock, ← hy1, hy0]
        · have hgk : (if k.id = conIt.id then
              ({ c1 with
                fileFd := fr
                status := statusType.statusOutgoingAnswer } : ConnectionType) else k) = k := by
            rw [if_neg hki]
          rw [hgk] at hk'u ⊢
          exact hu k hk hk'u
      split at h
      · rw [Except.ok.injEq] at h
        subst h
        exact hmain FileRef.chatLogRO
      · split at h
        · rw [Except.ok.injEq] at h
          subst h
          exact hmain FileRef.nofile
        · exact absurd h (by simp)
  case isFalse =>
    rw [Except.ok.injEq] at h
    subst h
    exact ⟨hInv, rfl, fun u hu => hu⟩

theorem distributeAux_inv (nd : Bool) (t : Tm) :
    ∀ (todo : List ConnectionType) (st : ServerSt), ServerInv st →
      (∀ u ∈ todo, compat st u) →
      ∀ st', distributeAux nd t todo st = Except.ok st' →
        ServerInv st' ∧ st'.chatLogExists = st.chatLogExists := by
  intro todo
  induction todo with
  | nil =>
    intro st hInv hcompat st' h
    unfold distributeAux at h
    rw [Except.ok.injEq] at h
    subst h
    exact ⟨hInv, rfl⟩
  | cons conIt rest ih =>
    intro st hInv hcompat st' h
    unfold distributeAux at h
    cases hstep : distributeStep nd t st conIt with
    | error e =>
      rw [hstep] at h
      exact absurd h (by simp)
    | ok st1 =>
      rw [hstep] at h
      obtain ⟨hInv1, hcle1, htrans⟩ :=
        distributeStep_inv nd t st conIt hInv (hcompat conIt (by simp)) st1 hstep
      obtain ⟨hInv', hcle'⟩ := ih st1 hInv1
        (fun u hu => htrans u (hcompat u (by simp [hu]))) st' h
      exact ⟨hInv', by rw [hcle', hcle1]⟩

theorem checkChatMessageComplete_inv (nd : Bool) (t : Tm) (st : ServerSt)
    (c : ConnectionType) (hInv : ServerInv st) (hc : c ∈ st.registry) :
    ∀ st', checkChatMessageComplete nd t st c = Except.ok st' →
      ServerInv st' ∧ st'.chatLogExists = st.chatLogExists := by
  intro st' h
  unfold checkChatMessageComplete at h
  split at h
  · cases happ : appendToChatLog nd st
        ((c.buffer.drop c.body).take c.contentLength.toNat) with
    | error e =>
      rw [happ] at h
      exact absurd h (by simp)
    | ok st1 =>
      rw [happ] at h
      have hInv1 : ServerInv st1 ∧ st1.registry = st.registry ∧
          st1.chatLogExists = st.chatLogExists := by
        unfold appendToChatLog at happ
        split at happ
        · rw [Except.ok.injEq] at happ
          subst happ
          exact ⟨hInv, rfl, rfl⟩
        · split at happ
          · rw [Except.ok.injEq] at happ
            subst happ
            exact ⟨hInv, rfl, rfl⟩
          · exact absurd happ (by simp)
      obtain ⟨hInv1', hreg1, hcle1⟩ := hInv1
      have hc1 : c ∈ st1.registry := by
        rw [hreg1]
        exact hc
      obtain ⟨st2, hclose, hInv2, -, -, -, -, -, -, hcle2, -, -, -, -, -, -, -⟩ :=
        closeConnection_spec st1 c hInv1' hc1
      dsimp only at h
      rw [hclose] at h
      dsimp only at h
      obtain ⟨hInv', hcle'⟩ := distributeAux_inv nd t st2.registry st2 hInv2
        (inv_compat_self st2 hInv2) st' h
      rw [hcle', hcle2, hcle1]
      exact ⟨hInv', rfl⟩
  · rw [Except.ok.injEq] at h
    subst h
    exact ⟨hInv, rfl⟩

theorem updateSelf_events_inv (st : ServerSt) (c : ConnectionType) (c4 : ConnectionType)
    (hInv : ServerInv st) (hc : c ∈ st.registry)
    (hid : c4.id = c.id) (hidx : c4.pollStructIndex = c.pollStructIndex)
    (hsock : c4.socketFd = c.socketFd) (e : Nat) :
    ServerInv (setSlotEvents (updateConn st c.id (fun _ => c4))
      c4.pollStructIndex e) := by
  refine setSlotEvents_inv _ _ _ (updateConn_inv st c.id _ ?_ hInv)
  intro k hk hki
  have hkc : k = c := nodup_map_inj hInv.2.2.2.2.1 hk hc hki
  exact ⟨by rw [hkc, hid], by rw [hkc, hidx], by rw [hkc, hsock]⟩

theorem updateConn_self_inv (st : ServerSt) (c : ConnectionType) (c4 : ConnectionType)
    (hInv : ServerInv st) (hc : c ∈ st.registry)
    (hid : c4.id = c.id) (hidx : c4.pollStructIndex = c.pollStructIndex)
    (hsock : c4.socketFd = c.socketFd) :
    ServerInv (updateConn st c.id (fun _ => c4)) := by
  refine updateConn_inv st c.id _ ?_ hInv
  intro k hk hki
  have hkc : k = c := nodup_map_inj hInv.2.2.2.2.1 hk hc hki
  exact ⟨by rw [hkc, hid], by rw [hkc, hidx], by rw [hkc, hsock]⟩

theorem dispatchRequest_inv (nd : Bool) (inp : ConnInput) (st : ServerSt)
    (c2 : ConnectionType) (hInv : ServerInv st) (hc : c2 ∈ st.registry) :
    ∀ st', dispatchRequest nd inp st c2 = Except.ok st' →
      ServerInv st' ∧ st'.chatLogExists = st.chatLogExists := by
  intro st' h
  unfold dispatchRequest at h
  split at h
  case isTrue hcond =>
    cases hpr : parseRequest c2.buffer with
    | error e =>
      rw [hpr] at h
      exact absurd h (by simp)
    | ok result =>
      rw [hpr] at h
      dsimp only at h
      split at h
      case isTrue hpost =>
        cases hurl : result.url with
        | none =>
          rw [hurl] at h
          exact absurd h (by simp)
        | some u =>
          rw [hurl] at h
          dsimp only at h
          split at h
          · cases hbh : bufferHeaders inp.now c2 200 with
            | error e =>
              rw [hbh] at h
              exact absurd h (by simp)
            | ok c3 =>
              rw [hbh] at h
              dsimp only at h
              rw [Except.ok.injEq] at h
              subst h
              obtain ⟨hid, -, hsock, hidx, -, -, -, -, -⟩ :=
                bufferHeaders_frame _ _ _ _ hbh
              exact ⟨updateSelf_events_inv st c2
                ({ c3 with
                  fileFd := FileRef.diskRO
                  status := statusType.statusOutgoingAnswer })
                hInv hc hid hidx hsock POLLOUT, rfl⟩
          · cases hbh : bufferHeaders inp.now c2 404 with
            | error e =>
              rw [hbh] at h
              exact absurd h (by simp)
            | ok c3 =>
              rw [hbh] at h
              dsimp only at h
              rw [Except.ok.injEq] at h
              subst h
              obtain ⟨hid, -, hsock, hidx, -, -, -, -, -⟩ :=
                bufferHeaders_frame _ _ _ _ hbh
              exact ⟨updateSelf_events_inv st c2
                ({ c3 with
                  fileFd := if inp.errorDocOk then FileRef.errorDoc else FileRef.nofile
                  status := statusType.statusOutgoingAnswer })
                hInv hc hid hidx hsock POLLOUT, rfl⟩
      case isFalse hpost =>
        cases hcl : result.contentLength with
        | none =>
          rw [hcl] at h
          exact absurd h (by simp)
        | some cl =>
          rw [hcl] at h
          dsimp only at h
          split at h
          · rw [Except.ok.injEq] at h
            subst h
            exact ⟨updateSelf_events_inv st c2
              ({ c2 with status := statusType.statusChatReceiver })
              hInv hc rfl rfl rfl 0, rfl⟩
          · have hInv2 : ServerInv (updateConn st c2.id (fun _ =>
                { c2 with
                  status := statusType.statusChatSender
                  body := result.body
                  contentLength := cl })) :=
              updateConn_self_inv st c2 _ hInv hc rfl rfl rfl
            have hmem2 : ({ c2 with
                status := statusType.statusChatSender
                body := result.body
                contentLength := cl } : ConnectionType) ∈
                (updateConn st c2.id (fun _ =>
                  { c2 with
                    status := statusType.statusChatSender
                    body := result.body
                    contentLength := cl })).registry :=
              updateConn_mem_self st c2 _ hc
            exact checkChatMessageComplete_inv nd inp.now _ _ hInv2 hmem2 st' h
  case isFalse hcond =>
    split at h
    · exact checkChatMessageComplete_inv nd inp.now st c2 hInv hc st' h
    · rw [Except.ok.injEq] at h
      subst h
      exact ⟨hInv, rfl⟩

theorem receiveAfterGrow_inv (nd : Bool) (inp : ConnInput) (st : ServerSt)
    (c : ConnectionType) (hInv : ServerInv st) (hc : c ∈ st.registry) :
    ∀ st', receiveAfterGrow nd inp st c = Except.ok st' →
      ServerInv st' ∧ st'.chatLogExists = st.chatLogExists := by
  intro st' h
  unfold receiveAfterGrow at h
  cases hrm : receiveMessage inp (c.bufferSize - c.bufferFreeOffset) with
  | error e =>
    rw [hrm] at h
    exact absurd h (by simp)
  | ok d =>
    rw [hrm] at h
    dsimp only at h
    split at h
    · obtain ⟨st2, hclose, hInv2, -, -, -, -, -, -, hcle2, -, -, -, -, -, -, -⟩ :=
        closeConnection_spec st c hInv hc
      rw [hclose, Except.ok.injEq] at h
      subst h
      exact ⟨hInv2, hcle2⟩
    · set c2 : ConnectionType := { c with
        bufferFreeOffset := c.bufferFreeOffset + d.length
        buffer := (writeBytesAt c.buffer c.bufferFreeOffset d).set
          (c.bufferFreeOffset + d.length) 0 } with hc2
      have hInv2 : ServerInv ({ updateConn st c.id (fun _ => c2) with
          nulOutOfBounds :=
            if c.bufferSize ≤ c.bufferFreeOffset + d.length then true
            else st.nulOutOfBounds }) :=
        updateConn_self_inv st c c2 hInv hc rfl rfl rfl
      have hmem2 : c2 ∈ ({ updateConn st c.id (fun _ => c2) with
          nulOutOfBounds :=
            if c.bufferSize ≤ c.bufferFreeOffset + d.length then true
            else st.nulOutOfBounds } : ServerSt).registry :=
        updateConn_mem_self st c _ hc
      exact dispatchRequest_inv nd inp _ c2 hInv2 hmem2 st' h

theorem receiveConnection_inv (nd : Bool) (inp : ConnInput) (st : ServerSt)
    (c : ConnectionType) (hInv : ServerInv st) (hc : c ∈ st.registry) :
    ∀ st', receiveConnection nd inp st c = Except.ok st' →
      ServerInv st' ∧ st'.chatLogExists = st.chatLogExists := by
  intro st' h
  unfold receiveConnection at h
  split at h
  · split at h
    · obtain ⟨st2, hclose, hInv2, -, -, -, -, -, -, hcle2, -, -, -, -, -, -, -⟩ :=
        closeConnection_spec st c hInv hc
      rw [hclose, Except.ok.injEq] at h
      subst h
      exact ⟨hInv2, hcle2⟩
    · split at h
      · obtain ⟨st2, hclose, hInv2, -, -, -, -, -, -, hcle2, -, -, -, -, -, -, -⟩ :=
          closeConnection_spec st c hInv hc
        rw [hclose, Except.ok.injEq] at h
        subst h
        exact ⟨hInv2, hcle2⟩
      · set c1 : ConnectionType := { c with
          buffer := c.buffer ++ List.replicate c.bufferSize 0
          bufferSize := c.bufferSize * 2 } with hc1
        have hInv1 : ServerInv (updateConn st c.id (fun _ => c1)) :=
          updateConn_self_inv st c c1 hInv hc rfl rfl rfl
        have hmem1 : c1 ∈ (updateConn st c.id (fun _ => c1)).registry :=
          updateConn_mem_self st c _ hc
        exact receiveAfterGrow_inv nd inp _ c1 hInv1 hmem1 st' h
  · exact receiveAfterGrow_inv nd inp st c hInv hc st' h

/-- `sendBuffer` succeeds exactly when the write accepted a positive number of
bytes; the result advances the cursor by `min sres len` and changes nothing
else. -/
theorem sendBuffer_spec (inp : ConnInput) (c : ConnectionType) (c1 : ConnectionType)
    (h : sendBuffer inp c = Except.ok c1) :
    ∃ sres, inp.sendResult = some sres ∧
      0 < min sres (c.bufferLength - c.bufferFreeOffset) ∧
      c1 = { c with bufferFreeOffset :=
        c.bufferFreeOffset + min sres (c.bufferLength - c.bufferFreeOffset) } := by
  unfold sendBuffer at h
  cases hs : inp.sendResult with
  | none =>
    rw [hs] at h
    exact absurd h (by simp)
  | some sres =>
    rw [hs] at h
    dsimp only at h
    split at h
    · exact absurd h (by simp)
    case isFalse hne =>
      rw [Except.ok.injEq] at h
      exact ⟨sres, rfl, by omega, h.symm⟩

theorem sendConnection_inv (inp : ConnInput) (st : ServerSt) (c : ConnectionType)
    (hInv : ServerInv st) (hc : c ∈ st.registry) :
    ∀ st', sendConnection inp st c = Except.ok st' →
      ServerInv st' ∧ st'.chatLogExists = st.chatLogExists := by
  intro st' h
  unfold sendConnection at h
  split at h
  · cases hsb : sendBuffer inp c with
    | error e =>
      rw [hsb] at h
      exact absurd h (by simp)
    | ok c1 =>
      rw [hsb] at h
      dsimp only at h
      obtain ⟨sres, -, -, hc1⟩ := sendBuffer_spec inp c c1 hsb
      have hid1 : c1.id = c.id := by rw [hc1]
      have hidx1 : c1.pollStructIndex = c.pollStructIndex := by rw [hc1]
      have hsock1 : c1.socketFd = c.socketFd := by rw [hc1]
      set st1 : ServerSt := { updateConn st c.id (fun _ => c1) with
        netSent := st.netSent ++ ((c.buffer.drop c.bufferFreeOffset).take
          (c.bufferLength - c.bufferFreeOffset)).take
            (c1.bufferFreeOffset - c.bufferFreeOffset) } with hst1
      have hInv1 : ServerInv st1 :=
        updateConn_self_inv st c c1 hInv hc hid1 hidx1 hsock1
      have hmem1 : c1 ∈ st1.registry := updateConn_mem_self st c _ hc
      have hcle1 : st1.chatLogExists = st.chatLogExists := rfl
      split at h
      · split at h
        · obtain ⟨st2, hclose, hInv2, -, -, -, -, -, -, hcle2, -, -, -, -, -, -, -⟩ :=
            closeConnection_spec st1 c1 hInv1 hmem1
          rw [hclose, Except.ok.injEq] at h
          subst h
          exact ⟨hInv2, by rw [hcle2, hcle1]⟩
        · cases hfr : inp.fileReadData with
          | none =>
            rw [hfr] at h
            exact absurd h (by simp)
          | some d0 =>
            rw [hfr] at h
            dsimp only at h
            split at h
            · rw [Except.ok.injEq] at h
              subst h
              refine ⟨?_, rfl⟩
              have hgoal : ServerInv (updateConn st1 c1.id (fun _ =>
                  ({ c1 with
                    bufferFreeOffset := 0
                    bufferLength := (d0.take (c1.bufferSize - 1)).length
                    buffer := writeBytesAt c1.buffer 0 (d0.take (c1.bufferSize - 1)) }))) :=
                updateConn_self_inv st1 c1 _ hInv1 hmem1 rfl rfl rfl
              rw [show c.id = c1.id from hid1.symm]
              exact hgoal
            · obtain ⟨st2, hclose, hInv2, -, -, -, -, -, -, hcle2, -, -, -, -, -, -, -⟩ :=
                closeConnection_spec st1 c1 hInv1 hmem1
              rw [hclose, Except.ok.injEq] at h
              subst h
              exact ⟨hInv2, by rw [hcle2, hcle1]⟩
      · rw [Except.ok.injEq] at h
        subst h
        exact ⟨hInv1, hcle1⟩
  · exact absurd h (by simp)

theorem resizePollStruct_inv (st : ServerSt) (hInv : ServerInv st) :
    ServerInv (resizePollStruct true st) ∧
    (resizePollStruct true st).chatLogExists = st.chatLogExists ∧
    st.nextFreePollStructIndex < (resizePollStruct true st).pollStruct.length := by
  obtain ⟨hsz, hnf1, hnfle, hcount, hidnd, hidlt, hixnd, hbounds, hslots, hslot0, hlpos⟩ :=
    hInv
  have hlen := resize_length true st
  have hlen8 : (resizePollStruct true st).pollStruct.length =
      st.nextFreePollStructIndex - 1 + 2 + 1 + 8 := by
    rw [hlen]
    rfl
  have hget : ∀ j, j < st.nextFreePollStructIndex →
      getSlot (resizePollStruct true st) j = getSlot st j := by
    intro j hj
    refine getSlot_resize_lt true st j ?_ (by omega)
    show j < st.nextFreePollStructIndex - 1 + 2 + 1 + 8
    omega
  refine ⟨⟨resize_size_eq true st, hnf1, ?_, hcount, hidnd, hidlt, hixnd, hbounds,
    ?_, ?_, hlpos⟩, rfl, ?_⟩
  · have hnfr : (resizePollStruct true st).nextFreePollStructIndex =
        st.nextFreePollStructIndex := rfl
    rw [hnfr, hlen8]
    omega
  · intro k hk
    rw [hget k.pollStructIndex (hbounds k hk).2]
    exact hslots k hk
  · rw [hget 0 (by omega)]
    exact hslot0
  · rw [hlen8]
    omega

theorem acceptClaimSlot_inv (fd : Int) (st1 : ServerSt) (hInv : ServerInv st1)
    (hroom : st1.nextFreePollStructIndex < st1.pollStruct.length) (hfd : 0 < fd) :
    ServerInv (acceptClaimSlot fd st1) ∧
    (acceptClaimSlot fd st1).chatLogExists = st1.chatLogExists := by
  obtain ⟨hsz, hnf1, hnfle, hcount, hidnd, hidlt, hixnd, hbounds, hslots, hslot0, hlpos⟩ :=
    hInv
  unfold acceptClaimSlot
  dsimp only
  set v : Pollfd := { getSlot st1 st1.nextFreePollStructIndex with
    fd := fd
    events := POLLIN } with hv
  set newC2 : ConnectionType := {
    id := st1.nextId, status := statusType.statusIncomingRequest,
    fileFd := FileRef.nofile, socketFd := fd, bufferFreeOffset := 0,
    bufferLength := 0, bufferSize := BUFFER_SIZE,
    pollStructIndex := st1.nextFreePollStructIndex,
    buffer := List.replicate BUFFER_SIZE 0, body := 0, contentLength := 0 } with hnew
  have hsetlen : (st1.pollStruct.set st1.nextFreePollStructIndex v).length =
      st1.pollStruct.length := List.length_set _ _ _
  refine ⟨⟨?_, ?_, ?_, ?_, ?_, ?_, ?_, ?_, ?_, ?_, ?_⟩, rfl⟩
  · show st1.pollStructSize = (st1.pollStruct.set st1.nextFreePollStructIndex v).length
    rw [hsetlen]
    exact hsz
  · show 1 ≤ st1.nextFreePollStructIndex + 1
    omega
  · show st1.nextFreePollStructIndex + 1 ≤
      (st1.pollStruct.set st1.nextFreePollStructIndex v).length
    rw [hsetlen]
    omega
  · show st1.nextFreePollStructIndex + 1 = (st1.registry ++ [newC2]).length + 1
    rw [List.length_append, List.length_singleton]
    omega
  · show ((st1.registry ++ [newC2]).map (fun k => k.id)).Nodup
    rw [List.map_append, List.nodup_append]
    refine ⟨hidnd, by simp, ?_⟩
    intro a ha
    simp only [List.map_cons, List.map_nil, List.mem_singleton]
    obtain ⟨k, hk, rfl⟩ := List.mem_map.1 ha
    have := hidlt k hk
    intro he
    have hke : k.id = st1.nextId := by
      rw [he]
    omega
  · intro k' hk'
    show k'.id < st1.nextId + 1
    rcases List.mem_append.1 hk' with hk' | hk'
    · have := hidlt k' hk'
      omega
    · have hke : k' = newC2 := List.mem_singleton.1 hk'
      rw [hke]
      show st1.nextId < st1.nextId + 1
      omega
  · show ((st1.registry ++ [newC2]).map (fun k => k.pollStructIndex)).Nodup
    rw [List.map_append, List.nodup_append]
    refine ⟨hixnd, by simp, ?_⟩
    intro a ha
    simp only [List.map_cons, List.map_nil, List.mem_singleton]
    obtain ⟨k, hk, rfl⟩ := List.mem_map.1 ha
    have hlt := (hbounds k hk).2
    intro he
    have hke : k.pollStructIndex = st1.nextFreePollStructIndex := by
      rw [he]
    omega
  · intro k' hk'
    rcases List.mem_append.1 hk' with hk' | hk'
    · have hb := hbounds k' hk'
      refine ⟨hb.1, ?_⟩
      show k'.pollStructIndex < st1.nextFreePollStructIndex + 1
      omega
    · have hke : k' = newC2 := List.mem_singleton.1 hk'
      rw [hke]
      refine ⟨?_, ?_⟩
      · show 1 ≤ st1.nextFreePollStructIndex
        omega
      · show st1.nextFreePollStructIndex < st1.nextFreePollStructIndex + 1
        omega
  · intro k' hk'
    rcases List.mem_append.1 hk' with hk' | hk'
    · have hb := hbounds k' hk'
      constructor
      · show ((st1.pollStruct.set st1.nextFreePollStructIndex v).getD
          k'.pollStructIndex zeroPollfd).fd = k'.socketFd
        rw [getD_set_ne _ _ _ _ _ (by omega)]
        exact (hslots k' hk').1
      · exact (hslots k' hk').2
    · have hke : k' = newC2 := List.mem_singleton.1 hk'
      rw [hke]
      constructor
      · show ((st1.pollStruct.set st1.nextFreePollStructIndex v).getD
          st1.nextFreePollStructIndex zeroPollfd).fd = fd
        rw [getD_set_self _ _ _ _ hroom]
      · exact hfd
  · show ((st1.pollStruct.set st1.nextFreePollStructIndex v).getD 0 zeroPollfd).fd =
      st1.listeningSocket
    rw [getD_set_ne _ _ _ _ _ (by omega)]
    exact hslot0
  · exact hlpos

theorem acceptNewConnection_inv (acceptFd : Option Int) (st : ServerSt)
    (hInv : ServerInv st) (hfd : ∀ fd, acceptFd = some fd → 0 < fd) :
    ServerInv (acceptNewConnection acceptFd st) ∧
    (acceptNewConnection acceptFd st).chatLogExists = st.chatLogExists := by
  cases acceptFd with
  | none => exact ⟨hInv, rfl⟩
  | some fd =>
    have hfd0 : 0 < fd := hfd fd rfl
    show ServerInv (acceptClaimSlot fd _) ∧ (acceptClaimSlot fd _).chatLogExists = _
    by_cases hg : st.nextFreePollStructIndex ≥ st.pollStructSize - 1
    · rw [if_pos hg]
      obtain ⟨hInv1, hcle1, hroom1⟩ := resizePollStruct_inv st hInv
      obtain ⟨hInv2, hcle2⟩ := acceptClaimSlot_inv fd _ hInv1 hroom1 hfd0
      exact ⟨hInv2, by rw [hcle2, hcle1]⟩
    · rw [if_neg hg]
      have hroom : st.nextFreePollStructIndex < st.pollStruct.length := by
        have hsz := hInv.1
        have := hInv.2.2.1
        omega
      obtain ⟨hInv2, hcle2⟩ := acceptClaimSlot_inv fd st hInv hroom hfd0
      exact ⟨hInv2, hcle2⟩

/-! ## Claim theorems -/

/-- C2: after any handler returns — Accept, Receive, Send, or a connection
close — the readiness table's dense prefix `[0, nextFree)` contains exactly one
slot per connection in the Registry plus one slot for the listening socket,
i.e. `nextFree = |Registry| + 1`, and every slot `1..nextFree-1` is occupied by
a live descriptor (the owning connection's positive socket). -/
theorem claim_c2_table_counting (st : ServerSt) (hInv : ServerInv st) :
    (∀ acceptFd : Option Int, (∀ fd, acceptFd = some fd → 0 < fd) →
      ServerInv (acceptNewConnection acceptFd st) ∧
      tableOk (acceptNewConnection acceptFd st)) ∧
    (∀ (nd : Bool) (inp : ConnInput) (c : ConnectionType), c ∈ st.registry →
      ∀ st', receiveConnection nd inp st c = Except.ok st' →
        ServerInv st' ∧ tableOk st') ∧
    (∀ (inp : ConnInput) (c : ConnectionType), c ∈ st.registry →
      ∀ st', sendConnection inp st c = Except.ok st' →
        ServerInv st' ∧ tableOk st') ∧
    (∀ c : ConnectionType, c ∈ st.registry →
      ∃ st', closeConnection st c = Except.ok st' ∧ ServerInv st' ∧ tableOk st') := by
  refine ⟨?_, ?_, ?_, ?_⟩
  · intro a hf
    have h := acceptNewConnection_inv a st hInv hf
    exact ⟨h.1, inv_tableOk _ h.1⟩
  · intro nd inp c hc st' h
    have h2 := receiveConnection_inv nd inp st c hInv hc st' h
    exact ⟨h2.1, inv_tableOk _ h2.1⟩
  · intro inp c hc st' h
    have h2 := sendConnection_inv inp st c hInv hc st' h
    exact ⟨h2.1, inv_tableOk _ h2.1⟩
  · intro c hc
    obtain ⟨st', hok, hi, -⟩ := closeConnection_spec st c hInv hc
    exact ⟨st', hok, hi, inv_tableOk _ hi⟩

/-- Concrete broken-down time used by the witness states. -/
def tW : Tm := {
  tm_sec := 5, tm_min := 30, tm_hour := 14, tm_mday := 12,
  tm_mon := 9, tm_year := 2025, tm_wday := 0 }

/-- Witness connection in slot 1, currently receiving a request. -/
def connW1 : ConnectionType := {
  id := 0, status := statusType.statusIncomingRequest,
  fileFd := FileRef.nofile, socketFd := 5, bufferFreeOffset := 0, bufferLength := 0,
  bufferSize := 64, pollStructIndex := 1, buffer := List.replicate 64 0,
  body := 0, contentLength := 0 }

/-- Witness connection in slot 2, currently streaming a response. -/
def connW2 : ConnectionType := {
  id := 1, status := statusType.statusOutgoingAnswer,
  fileFd := FileRef.nofile, socketFd := 6, bufferFreeOffset := 0, bufferLength := 4,
  bufferSize := 8, pollStructIndex := 2, buffer := strBytes "hi!?\x00\x00\x00\x00",
  body := 0, contentLength := 0 }

/-- Witness server state: the listener in slot 0 and two live connections. -/
def stW2 : ServerSt := {
  listeningSocket := 3,
  pollStruct := [{ fd := 3, events := POLLIN, revents := 0 },
    { fd := 5, events := POLLIN, revents := 0 },
    { fd := 6, events := POLLOUT, revents := 0 }] ++ List.replicate 6 zeroPollfd,
  pollStructSize := 9, nextFreePollStructIndex := 3, registry := [connW1, connW2],
  nextId := 2, chatLogExists := true, chatLog := [], netSent := [],
  badFdWrite := false, nulOutOfBounds := false }

/-- Witness handler input: a complete `GET` request arrives, the file opens,
the socket accepts two bytes. -/
def inpW : ConnInput := {
  reallocOk := true,
  readData := some (strBytes "GET /i HTTP/1.0\r\n\r\n"),
  sendResult := some 2, fileReadData := some [], fileOpenOk := true,
  errorDocOk := true, now := tW }

/-- Result of the witness Receive step. -/
def stW2r : ServerSt := (receiveConnection false inpW stW2 connW1).toOption.getD stW2

/-- Result of the witness Send step. -/
def stW2s : ServerSt := (sendConnection inpW stW2 connW2).toOption.getD stW2

theorem claim_c2_table_counting_witness :
    ServerInv stW2 ∧
    (ServerInv (acceptNewConnection (some 7) stW2) ∧
      tableOk (acceptNewConnection (some 7) stW2)) ∧
    (ServerInv stW2r ∧ tableOk stW2r) ∧
    (ServerInv stW2s ∧ tableOk stW2s) ∧
    (∃ st', closeConnection stW2 connW1 = Except.ok st' ∧ ServerInv st' ∧ tableOk st') := by
  refine ⟨by decide, ?_, ?_, ?_, ?_⟩
  · exact (claim_c2_table_counting stW2 (by decide)).1 (some 7)
      (by intro fd h; simp at h; omega)
  · exact (claim_c2_table_counting stW2 (by decide)).2.1 false inpW connW1 (by decide)
      stW2r (by rfl)
  · exact (claim_c2_table_counting stW2 (by decide)).2.2.1 inpW connW2 (by decide)
      stW2s (by rfl)
  · exact (claim_c2_table_counting stW2 (by decide)).2.2.2 connW1 (by decide)

/-- C4: for every connection close where the closed connection's slot index
`i` differs from `nextFree - 1`, `closeConnection` finds the unique Registry
connection whose `pollStructIndex` equals `nextFree - 1`, copies that
connection's slot over slot `i` and redirects its `pollStructIndex` to `i`;
it then zeroes slot `nextFree - 1` and decrements `nextFree`, and the occupied
prefix of the table remains dense (the counting property `tableOk`). -/
theorem claim_c4_swap_remove (st : ServerSt) (c : ConnectionType)
    (hInv : ServerInv st) (hc : c ∈ st.registry)
    (hne : c.pollStructIndex ≠ st.nextFreePollStructIndex - 1) :
    ∃ st' conIt, closeConnection st c = Except.ok st' ∧
      conIt ∈ st.registry ∧ conIt ≠ c ∧
      conIt.pollStructIndex = st.nextFreePollStructIndex - 1 ∧
      (∀ k ∈ st.registry, k.pollStructIndex = st.nextFreePollStructIndex - 1 →
        k = conIt) ∧
      getSlot st' c.pollStructIndex = getSlot st (st.nextFreePollStructIndex - 1) ∧
      (∃ k' ∈ st'.registry, k'.id = conIt.id ∧
        k'.pollStructIndex = c.pollStructIndex ∧ eqExceptIndex conIt k') ∧
      getSlot st' (st.nextFreePollStructIndex - 1) = zeroPollfd ∧
      st'.nextFreePollStructIndex = st.nextFreePollStructIndex - 1 ∧
      ServerInv st' ∧ tableOk st' := by
  have hnf1 : 1 ≤ st.nextFreePollStructIndex := hInv.2.1
  have hne' : c.pollStructIndex + 1 ≠ st.nextFreePollStructIndex := by omega
  obtain ⟨st', hok, hi, hnf, -, -, -, -, -, -, -, -, -, -, -, hlast, hswap⟩ :=
    closeConnection_spec st c hInv hc
  obtain ⟨conIt, hmem, hnec, hidx, huniq, hcopy, hk'⟩ := hswap hne'
  refine ⟨st', conIt, hok, hmem, hnec, by omega, ?_, hcopy, hk', hlast, by omega, hi,
    inv_tableOk _ hi⟩
  intro k hk hki
  exact huniq k hk (by omega)

theorem claim_c4_swap_remove_witness :
    ServerInv stW2 ∧ connW1 ∈ stW2.registry ∧
    connW1.pollStructIndex ≠ stW2.nextFreePollStructIndex - 1 ∧
    (∃ st' conIt, closeConnection stW2 connW1 = Except.ok st' ∧
      conIt ∈ stW2.registry ∧ conIt ≠ connW1 ∧
      conIt.pollStructIndex = stW2.nextFreePollStructIndex - 1 ∧
      (∀ k ∈ stW2.registry, k.pollStructIndex = stW2.nextFreePollStructIndex - 1 →
        k = conIt) ∧
      getSlot st' connW1.pollStructIndex =
        getSlot stW2 (stW2.nextFreePollStructIndex - 1) ∧
      (∃ k' ∈ st'.registry, k'.id = conIt.id ∧
        k'.pollStructIndex = connW1.pollStructIndex ∧ eqExceptIndex conIt k') ∧
      getSlot st' (stW2.nextFreePollStructIndex - 1) = zeroPollfd ∧
      st'.nextFreePollStructIndex = stW2.nextFreePollStructIndex - 1 ∧
      ServerInv st' ∧ tableOk st') :=
  ⟨by decide, by decide, by decide,
    claim_c4_swap_remove stW2 connW1 (by decide) (by decide) (by decide)⟩

/-- Event-loop input whose poll call failed with `errno = EINTR`. -/
def iiEintr : IterInput := {
  pollResult := PollRes.err true, reventsOf := fun _ => 0,
  acceptFd := none, connInput := fun _ => inpW }

/-- Event-loop input whose poll call failed with an `errno` other than
`EINTR`. -/
def iiErrOther : IterInput := {
  pollResult := PollRes.err false, reventsOf := fun _ => 0,
  acceptFd := none, connInput := fun _ => inpW }

/-- C3, counterexample: in the source, an iteration whose `poll` fails with
`EINTR` exits the process with status 1 — it does not retry the wait.
(`exitIfError` tests only the `-1` result, never `errno`.) -/
theorem claim_c3_eintr_counterexample :
    talkToClientsIteration false iiEintr stW2 = Except.error (Crash.exitCode 1) := rfl

/-- C3 (amended): the loop body never returns — an iteration either produces
the state for the next round or terminates the process — and every failure of
the blocking readiness wait is fatal with exit status 1, including when
`errno` is `EINTR`: there is no retry path. -/
theorem claim_c3_poll_error_fatal (nd : Bool) (ii : IterInput) (st : ServerSt)
    (e : Bool) (h : ii.pollResult = PollRes.err e) :
    talkToClientsIteration nd ii st = Except.error (Crash.exitCode 1) := by
  unfold talkToClientsIteration
  rw [h]

theorem claim_c3_poll_error_fatal_witness :
    iiErrOther.pollResult = PollRes.err false ∧
    talkToClientsIteration false iiErrOther stW2 = Except.error (Crash.exitCode 1) :=
  ⟨rfl, claim_c3_poll_error_fatal false iiErrOther stW2 false rfl⟩

/-- Fresh witness connection with an 8-byte buffer (the same doubling
schedule as the real 1024-byte buffers, scaled down for evaluation). -/
def connW8 : ConnectionType := {
  id := 0, status := statusType.statusIncomingRequest,
  fileFd := FileRef.nofile, socketFd := 5, bufferFreeOffset := 0, bufferLength := 0,
  bufferSize := 8, pollStructIndex := 1, buffer := List.replicate 8 0,
  body := 0, contentLength := 0 }

/-- Witness state holding only `connW8`. -/
def stW8 : ServerSt := {
  listeningSocket := 3,
  pollStruct := [{ fd := 3, events := POLLIN, revents := 0 },
    { fd := 5, events := POLLIN, revents := 0 }] ++ List.replicate 7 zeroPollfd,
  pollStructSize := 9, nextFreePollStructIndex := 2, registry := [connW8],
  nextId := 1, chatLogExists := true, chatLog := [], netSent := [],
  badFdWrite := false, nulOutOfBounds := false }

/-- Input delivering exactly `capacity - length` bytes, the boundary case of
claim C8. -/
def inpW8 : ConnInput := {
  reallocOk := true,
  readData := some (strBytes "ABCDEFGH"),
  sendResult := none, fileReadData := none, fileOpenOk := true,
  errorDocOk := true, now := tW }

/-- Result of the boundary-filling Receive step. -/
def stW8r : ServerSt := (receiveConnection false inpW8 stW8 connW8).toOption.getD stW8

/-- C8: evaluation of `receiveConnection` at the failing input.  A read that
returns exactly `capacity - length` bytes (here 8 bytes into the empty 8-byte
buffer) advances `bufferFreeOffset` to `bufferSize` and then stores the NUL
terminator at index `bufferFreeOffset = bufferSize` — one past the end of the
allocation (`nulOutOfBounds` records the out-of-range store).  The claim that
the NUL index is always strictly below the allocated capacity is false on this
input. -/
theorem claim_c8_nul_terminator_out_of_bounds :
    receiveConnection false inpW8 stW8 connW8 = Except.ok stW8r ∧
    stW8r.nulOutOfBounds = true ∧
    (∃ k ∈ stW8r.registry, k.id = connW8.id ∧
      k.bufferFreeOffset = connW8.bufferFreeOffset + 8 ∧
      k.bufferFreeOffset = k.bufferSize ∧ k.buffer.length = k.bufferSize) :=
  ⟨rfl, by decide, by decide⟩

/-- The C9 failing request: a `POST /broadcast.service` with no
`Content-Length` header at all. -/
def reqC9 : List Byte := strBytes "POST /broadcast.service HTTP/1.0\r\n\r\n"

/-- Witness connection for the C9 request (64-byte buffer). -/
def connW9 : ConnectionType := {
  id := 0, status := statusType.statusIncomingRequest,
  fileFd := FileRef.nofile, socketFd := 5, bufferFreeOffset := 0, bufferLength := 0,
  bufferSize := 64, pollStructIndex := 1, buffer := List.replicate 64 0,
  body := 0, contentLength := 0 }

/-- Witness state holding only `connW9`. -/
def stW9 : ServerSt := {
  listeningSocket := 3,
  pollStruct := [{ fd := 3, events := POLLIN, revents := 0 },
    { fd := 5, events := POLLIN, revents := 0 }] ++ List.replicate 7 zeroPollfd,
  pollStructSize := 9, nextFreePollStructIndex := 2, registry := [connW9],
  nextId := 1, chatLogExists := true, chatLog := [], netSent := [],
  badFdWrite := false, nulOutOfBounds := false }

/-- Input delivering the C9 request in one read. -/
def inpW9 : ConnInput := {
  reallocOk := true, readData := some reqC9,
  sendResult := none, fileReadData := none, fileOpenOk := true,
  errorDocOk := true, now := tW }

/-- C9: evaluation at the failing input.  `parseRequest` initializes only
`post`; on a `POST /broadcast.service` request without a `Content-Length`
header the returned `contentLength` is still uninitialized (`none`), and
`receiveConnection` then branches on `contentLength == 0` — a read of an
uninitialized `int`, modelled as the crash `Crash.uninitRead`.  The claim that
`contentLength` is always assigned before that branch is false on this
input. -/
theorem claim_c9_uninitialized_content_length :
    parseRequest (reqC9 ++ List.replicate 28 0) =
      Except.ok { post := true, contentLength := none, url := none, body := 36 } ∧
    receiveConnection false inpW9 stW9 connW9 = Except.error Crash.uninitRead :=
  ⟨rfl, rfl⟩

theorem acceptNewConnection_chatLogExists (a : Option Int) (st : ServerSt) :
    (acceptNewConnection a st).chatLogExists = st.chatLogExists := by
  cases a with
  | none => rfl
  | some fd =>
    show (acceptClaimSlot fd _).chatLogExists = _
    have h1 : ∀ x : ServerSt, (acceptClaimSlot fd x).chatLogExists = x.chatLogExists :=
      fun x => rfl
    rw [h1]
    split
    · rfl
    · rfl

theorem closeConnection_chatLogExists (st : ServerSt) (c : ConnectionType)
    (st' : ServerSt) (h : closeConnection st c = Except.ok st') :
    st'.chatLogExists = st.chatLogExists := by
  unfold closeConnection at h
  cases hsw : closeSwap st.nextFreePollStructIndex c
      { st with registry := st.registry.filter (fun k => k.id ≠ c.id) } with
  | error e =>
    rw [hsw] at h
    exact absurd h (by simp)
  | ok st2 =>
    rw [hsw] at h
    dsimp only at h
    rw [Except.ok.injEq] at h
    subst h
    have h2 : st2.chatLogExists = st.chatLogExists := by
      unfold closeSwap at hsw
      split at hsw
      · split at hsw
        · exact absurd hsw (by simp)
        · rw [Except.ok.injEq] at hsw
          subst hsw
          rfl
      · rw [Except.ok.injEq] at hsw
        subst hsw
        rfl
    have h3 : (closeTail st.nextFreePollStructIndex st2).chatLogExists =
        st2.chatLogExists := by
      unfold closeTail
      dsimp only
      split
      · rfl
      · rfl
    rw [h3, h2]

/-- C10: the chat-log opens.  `appendToChatLog` opens `./logs/chat_log` with
`O_WRONLY | O_APPEND` and no `O_CREAT`, so the open yields a valid descriptor
exactly when the file already exists; the failure branch is guarded only by an
`assert` (with assertions compiled in, a missing file aborts; with `NDEBUG`
the code issues an unchecked `write` on descriptor `-1` and the log is not
extended).  The read-only open for a parked receiver hits its own assert the
same way.  No handler of the server ever creates the file: existence is
preserved by Accept, Receive, Send and close. -/
theorem claim_c10_chat_log_opens (nd : Bool) (st : ServerSt) (msg : List Byte) :
    (st.chatLogExists = true →
      appendToChatLog nd st msg = Except.ok { st with chatLog := st.chatLog ++ msg }) ∧
    (st.chatLogExists = false → nd = false →
      appendToChatLog nd st msg = Except.error Crash.assertFail) ∧
    (st.chatLogExists = false → nd = true →
      appendToChatLog nd st msg = Except.ok { st with badFdWrite := true }) ∧
    (st.chatLogExists = false → nd = false →
      ∀ (t : Tm) (conIt : ConnectionType) (r : ConnectionType),
        conIt.status = statusType.statusChatReceiver →
        bufferHeaders t conIt 200 = Except.ok r →
        distributeStep nd t st conIt = Except.error Crash.assertFail) ∧
    (∀ a, (acceptNewConnection a st).chatLogExists = st.chatLogExists) ∧
    (∀ c st', closeConnection st c = Except.ok st' →
      st'.chatLogExists = st.chatLogExists) ∧
    (ServerInv st → ∀ (nd' : Bool) (inp : ConnInput) (c : ConnectionType),
      c ∈ st.registry → ∀ st', receiveConnection nd' inp st c = Except.ok st' →
        st'.chatLogExists = st.chatLogExists) ∧
    (ServerInv st → ∀ (inp : ConnInput) (c : ConnectionType),
      c ∈ st.registry → ∀ st', sendConnection inp st c = Except.ok st' →
        st'.chatLogExists = st.chatLogExists) := by
  refine ⟨?_, ?_, ?_, ?_, ?_, ?_, ?_, ?_⟩
  · intro he
    unfold appendToChatLog
    rw [if_pos he]
  · intro he hnd
    unfold appendToChatLog
    rw [if_neg (by rw [he]; exact Bool.false_ne_true), if_neg (by rw [hnd]; exact
      Bool.false_ne_true)]
  · intro he hnd
    unfold appendToChatLog
    rw [if_neg (by rw [he]; exact Bool.false_ne_true), if_pos hnd]
  · intro he hnd t conIt r hrecv hbh
    unfold distributeStep
    rw [if_pos hrecv, hbh]
    dsimp only
    rw [if_neg (by rw [he]; exact Bool.false_ne_true), if_neg (by rw [hnd]; exact
      Bool.false_ne_true)]
  · intro a
    exact acceptNewConnection_chatLogExists a st
  · intro c st' h
    exact closeConnection_chatLogExists st c st' h
  · intro hInv nd' inp c hc st' h
    exact (receiveConnection_inv nd' inp st c hInv hc st' h).2
  · intro hInv inp c hc st' h
    exact (sendConnection_inv inp st c hInv hc st' h).2

/-- Witness state without an existing chat log. -/
def stW2nolog : ServerSt := { stW2 with chatLogExists := false }

theorem claim_c10_chat_log_opens_witness :
    stW2.chatLogExists = true ∧ stW2nolog.chatLogExists = false ∧
    appendToChatLog false stW2 [104] =
      Except.ok { stW2 with chatLog := stW2.chatLog ++ [104] } ∧
    appendToChatLog false stW2nolog [104] = Except.error Crash.assertFail ∧
    appendToChatLog true stW2nolog [104] =
      Except.ok { stW2nolog with badFdWrite := true } :=
  ⟨rfl, rfl,
    (claim_c10_chat_log_opens false stW2 [104]).1 rfl,
    (claim_c10_chat_log_opens false stW2nolog [104]).2.1 rfl rfl,
    (claim_c10_chat_log_opens true stW2nolog [104]).2.2.1 rfl rfl⟩

theorem strcpyAt_eq (dst : List Byte) (off : Nat) (src : List Byte)
    (h : off + src.length + 1 ≤ dst.length) :
    strcpyAt dst off src =
      dst.take off ++ src ++ [0] ++ dst.drop (off + src.length + 1) := by
  have hlen : (dst.take off ++ src ++ [0] ++ dst.drop (off + src.length + 1)).length =
      dst.length := by
    simp
    omega
  rw [strcpyAt, ← hlen, List.take_length]

theorem cStrlen_append (s rest : List Byte) (hs : ∀ b ∈ s, b ≠ 0) :
    cStrlen (s ++ 0 :: rest) = s.length := by
  induction s with
  | nil => simp [cStrlen, cString]
  | cons b bs ih =>
    have hb : b ≠ 0 := hs b (by simp)
    have hbs : ∀ x ∈ bs, x ≠ 0 := fun x hx => hs x (by simp [hx])
    have hrec := ih hbs
    simp only [cStrlen, cString] at hrec ⊢
    rw [List.cons_append, List.takeWhile_cons, if_pos (by simp [hb])]
    simp only [List.length_cons]
    omega

/-- The common closing step of `bufferHeaders`: on a buffer whose C string is
the NUL-free prefix `P`, appending the blank line yields the C string
`P ++ "\r\n"` and leaves the allocation size unchanged. -/
theorem finish_chain (P rest : List Byte) (hP : ∀ b ∈ P, b ≠ 0)
    (hfit : P.length + 3 ≤ (P ++ 0 :: rest).length) :
    (strcpyAt (P ++ 0 :: rest) (cStrlen (P ++ 0 :: rest))
      (strBytes "\r\n")).take (P.length + 2) = P ++ strBytes "\r\n" ∧
    cStrlen (strcpyAt (P ++ 0 :: rest) (cStrlen (P ++ 0 :: rest))
      (strBytes "\r\n")) = P.length + 2 ∧
    (strcpyAt (P ++ 0 :: rest) (cStrlen (P ++ 0 :: rest))
      (strBytes "\r\n")).length = (P ++ 0 :: rest).length := by
  have hcrlf : strBytes "\r\n" = [13, 10] := rfl
  have hcs : cStrlen (P ++ 0 :: rest) = P.length := cStrlen_append P rest hP
  have hlen3 : (strBytes "\r\n").length = 2 := rfl
  have hfit' : 2 ≤ rest.length := by
    simpa using hfit
  have heq : strcpyAt (P ++ 0 :: rest) (cStrlen (P ++ 0 :: rest)) (strBytes "\r\n") =
      (P ++ strBytes "\r\n") ++ 0 :: rest.drop 2 := by
    rw [hcs, strcpyAt_eq _ _ _ (by rw [hlen3]; omega)]
    have htake : (P ++ 0 :: rest).take P.length = P := by
      rw [List.take_left]
    rw [htake, hlen3]
    have hdrop : (P ++ 0 :: rest).drop (P.length + 2 + 1) = rest.drop 2 := by
      rw [show P.length + 2 + 1 = P.length + 3 from rfl]
      rw [List.drop_append]
      rfl
    rw [hdrop]
    simp [List.append_assoc]
  constructor
  · rw [heq]
    have hl : P.length + 2 = (P ++ strBytes "\r\n").length := by
      simp [hcrlf]
    rw [hl, List.take_left]
  constructor
  · rw [heq]
    rw [cStrlen_append]
    · simp [hcrlf]
    · intro b hb
      rcases List.mem_append.1 hb with hb | hb
      · exact hP b hb
      · rw [hcrlf] at hb
        simp at hb
        rcases hb with rfl | rfl
        · decide
        · decide
  · rw [heq]
    simp [hcrlf]
    omega

theorem strBytes_append (a b : String) : strBytes (a ++ b) = strBytes a ++ strBytes b := by
  simp [strBytes]

/-- C6: the Response Builder.  With status 200 it writes exactly the bytes
`HTTP/1.0 200 OK\r\nDate: <date>\r\n\r\n` at buffer offset 0, where `<date>`
is the current UTC time rendered through the `strftime` format
`%a, %d %b %Y %H:%M:%S %Z` (see `dateMessage`/`strftimeTimePart`); with status
404 it writes exactly `HTTP/1.0 404 Not Found\r\n\r\n` at offset 0.  In both
cases `bufferLength` becomes the total byte count and `bufferFreeOffset`
becomes 0, and the allocation size is unchanged.  The side conditions are the
source's own guards: the date fits `strftime`'s 40-byte stack buffer, the
headers fit the connection buffer, and the rendered date contains no NUL. -/
theorem claim_c6_response_builder (t : Tm) (c : ConnectionType)
    (hbuf : c.buffer.length = c.bufferSize)
    (hdatefit : (strBytes (dateMessage t)).length + 1 ≤ 40)
    (hfit200 : (strBytes (dateMessage t)).length +
      (strBytes "HTTP/1.0 200 OK\r\n").length + 3 ≤ c.bufferSize)
    (hfit404 : (strBytes "HTTP/1.0 404 Not Found\r\n").length + 3 ≤ c.bufferSize)
    (hnz : ∀ b ∈ strBytes (dateMessage t), b ≠ 0) :
    (∃ c', bufferHeaders t c 200 = Except.ok c' ∧
      c'.buffer.take
          ((strBytes ("HTTP/1.0 200 OK\r\n" ++ dateMessage t ++ "\r\n")).length) =
        strBytes ("HTTP/1.0 200 OK\r\n" ++ dateMessage t ++ "\r\n") ∧
      c'.bufferLength =
        (strBytes ("HTTP/1.0 200 OK\r\n" ++ dateMessage t ++ "\r\n")).length ∧
      c'.bufferFreeOffset = 0 ∧ c'.buffer.length = c.buffer.length) ∧
    (∃ c', bufferHeaders t c 404 = Except.ok c' ∧
      c'.buffer.take ((strBytes ("HTTP/1.0 404 Not Found\r\n" ++ "\r\n")).length) =
        strBytes ("HTTP/1.0 404 Not Found\r\n" ++ "\r\n") ∧
      c'.bufferLength = (strBytes ("HTTP/1.0 404 Not Found\r\n" ++ "\r\n")).length ∧
      c'.bufferFreeOffset = 0 ∧ c'.buffer.length = c.buffer.length) := by
  constructor
  · set S : List Byte := strBytes "HTTP/1.0 200 OK\r\n" with hSdef
    set D : List Byte := strBytes (dateMessage t) with hDdef
    have hSnz : ∀ b ∈ S, b ≠ 0 := by decide
    have hSlen : S.length = 17 := by decide
    have hb1 : 0 + S.length + 1 ≤ c.buffer.length := by omega
    have hbuf1 : strcpyAt c.buffer 0 S = S ++ 0 :: c.buffer.drop (S.length + 1) := by
      rw [strcpyAt_eq _ _ _ hb1]
      simp
    have hbuf1len : (strcpyAt c.buffer 0 S).length = c.buffer.length :=
      strcpyAt_length _ _ _
    have hb2 : S.length + D.length + 1 ≤ (strcpyAt c.buffer 0 S).length := by
      rw [hbuf1len]
      omega
    have hbuf2 : strcpyAt (strcpyAt c.buffer 0 S) S.length D =
        (S ++ D) ++ 0 :: (strcpyAt c.buffer 0 S).drop (S.length + D.length + 1) := by
      rw [strcpyAt_eq _ _ _ hb2]
      have htake : (strcpyAt c.buffer 0 S).take S.length = S := by
        rw [hbuf1, List.take_left]
      rw [htake]
      simp [List.append_assoc]
    have hfitP : (S ++ D).length + 3 ≤
        ((S ++ D) ++ 0 :: (strcpyAt c.buffer 0 S).drop (S.length + D.length + 1)).length := by
      simp
      have := hbuf1len
      omega
    obtain ⟨htake3, hcs3, hlen3⟩ := finish_chain (S ++ D)
      ((strcpyAt c.buffer 0 S).drop (S.length + D.length + 1))
      (by
        intro b hb
        rcases List.mem_append.1 hb with hb | hb
        · exact hSnz b hb
        · exact hnz b hb)
      hfitP
    have hfull : strBytes ("HTTP/1.0 200 OK\r\n" ++ dateMessage t ++ "\r\n") =
        (S ++ D) ++ strBytes "\r\n" := by
      rw [strBytes_append, strBytes_append]
    refine ⟨finishHeaders c (strcpyAt (strcpyAt c.buffer 0 S) S.length D)
      (cStrlen (strcpyAt (strcpyAt c.buffer 0 S) S.length D)), ?_, ?_, ?_, rfl, ?_⟩
    · show bufferHeaders t c 200 = _
      unfold bufferHeaders
      dsimp only
      rw [← hSdef, ← hDdef]
      rw [if_pos rfl, if_neg (by omega), if_neg (by omega)]
    · show (strcpyAt _ _ _).take _ = _
      rw [hfull]
      have hlenfull : ((S ++ D) ++ strBytes "\r\n").length = (S ++ D).length + 2 := by
        have h2 : (strBytes "\r\n").length = 2 := rfl
        simp [h2]
        omega
      rw [hlenfull]
      rw [hbuf2]
      exact htake3
    · show cStrlen (strcpyAt _ _ _) = _
      rw [hfull]
      have hlenfull : ((S ++ D) ++ strBytes "\r\n").length = (S ++ D).length + 2 := by
        have h2 : (strBytes "\r\n").length = 2 := rfl
        simp [h2]
        omega
      rw [hlenfull]
      rw [hbuf2]
      exact hcs3
    · show (strcpyAt _ _ _).length = c.buffer.length
      rw [strcpyAt_length, strcpyAt_length, strcpyAt_length]
  · set S : List Byte := strBytes "HTTP/1.0 404 Not Found\r\n" with hSdef
    have hSnz : ∀ b ∈ S, b ≠ 0 := by decide
    have hSlen : S.length = 24 := by decide
    have hb1 : 0 + S.length + 1 ≤ c.buffer.length := by omega
    have hbuf1 : strcpyAt c.buffer 0 S = S ++ 0 :: c.buffer.drop (S.length + 1) := by
      rw [strcpyAt_eq _ _ _ hb1]
      simp
    have hfitP : S.length + 3 ≤ (S ++ 0 :: c.buffer.drop (S.length + 1)).length := by
      simp
      omega
    obtain ⟨htake3, hcs3, hlen3⟩ := finish_chain S (c.buffer.drop (S.length + 1))
      hSnz hfitP
    have hfull : strBytes ("HTTP/1.0 404 Not Found\r\n" ++ "\r\n") =
        S ++ strBytes "\r\n" := by
      rw [strBytes_append]
    refine ⟨finishHeaders c (strcpyAt c.buffer 0 S) (cStrlen (strcpyAt c.buffer 0 S)),
      ?_, ?_, ?_, rfl, ?_⟩
    · show bufferHeaders t c 404 = _
      unfold bufferHeaders
      dsimp only
      rw [← hSdef]
      rw [if_neg (by omega), if_pos rfl, if_neg (by omega)]
    · show (strcpyAt _ _ _).take _ = _
      rw [hfull]
      have hlenfull : (S ++ strBytes "\r\n").length = S.length + 2 := by
        have h2 : (strBytes "\r\n").length = 2 := rfl
        simp [h2]
      rw [hlenfull]
      rw [hbuf1]
      exact htake3
    · show cStrlen (strcpyAt _ _ _) = _
      rw [hfull]
      have hlenfull : (S ++ strBytes "\r\n").length = S.length + 2 := by
        have h2 : (strBytes "\r\n").length = 2 := rfl
        simp [h2]
      rw [hlenfull]
      rw [hbuf1]
      exact hcs3
    · show (strcpyAt _ _ _).length = c.buffer.length
      rw [strcpyAt_length, strcpyAt_length]

/-- Concrete run of the response builder on a 64-byte buffer at a fixed clock time. -/
theorem claim_c6_response_builder_witness :
    connW1.buffer.length = connW1.bufferSize ∧
    (∃ c', bufferHeaders tW connW1 200 = Except.ok c' ∧
      c'.bufferFreeOffset = 0 ∧ c'.buffer.length = connW1.buffer.length) ∧
    (∃ c', bufferHeaders tW connW1 404 = Except.ok c' ∧
      c'.bufferFreeOffset = 0 ∧ c'.buffer.length = connW1.buffer.length) := by
  refine ⟨by decide, ?_, ?_⟩
  · obtain ⟨⟨c', h1, _, _, h4, h5⟩, _⟩ :=
      claim_c6_response_builder tW connW1 (by decide) (by decide) (by decide)
        (by decide) (by decide)
    exact ⟨c', h1, h4, h5⟩
  · obtain ⟨_, ⟨c', h1, _, _, h4, h5⟩⟩ :=
      claim_c6_response_builder tW connW1 (by decide) (by decide) (by decide)
        (by decide) (by decide)
    exact ⟨c', h1, h4, h5⟩

/-- Witness connection for C5: a full 1024-byte buffer about to be grown. -/
def connW5 : ConnectionType := {
  id := 0, status := statusType.statusIncomingRequest,
  fileFd := FileRef.nofile, socketFd := 5, bufferFreeOffset := 1024,
  bufferLength := 0, bufferSize := 1024, pollStructIndex := 1,
  buffer := List.replicate 1024 65, body := 0, contentLength := 0 }

/-- Witness state holding only `connW5`. -/
def stW5 : ServerSt := {
  listeningSocket := 3,
  pollStruct := [{ fd := 3, events := POLLIN, revents := 0 },
    { fd := 5, events := POLLIN, revents := 0 }] ++ List.replicate 7 zeroPollfd,
  pollStructSize := 9, nextFreePollStructIndex := 2, registry := [connW5],
  nextId := 1, chatLogExists := true, chatLog := [], netSent := [],
  badFdWrite := false, nulOutOfBounds := false }

/-- Input for the C5 witness: `realloc` succeeds, the subsequent read yields
no data (peer hung up). -/
def inpW5 : ConnInput := {
  reallocOk := true, readData := some [],
  sendResult := none, fileReadData := none, fileOpenOk := true,
  errorDocOk := true, now := tW }

/-- C5: buffer growth on a full buffer in Receive.  If the connection's buffer
is full on entry (`bufferFreeOffset = bufferSize`): (a) when the capacity has
already reached `MAX_BUFFER_SIZE`, the step is exactly `closeConnection` — a
function of the state alone, so no read is attempted — and the close succeeds,
removes exactly the oversized connection (every other connection survives with
all fields except possibly its slot index intact), and preserves the
size invariant `sizesOk` (all capacities of the form `1024 * 2 ^ k ≤
MAX_BUFFER_SIZE`); (b) otherwise, when `realloc` succeeds, the step is exactly
the read phase on the connection with capacity doubled and the new half
zeroed, and the doubled capacity still satisfies `sizesOk`; (c) a newly
accepted connection starts with capacity `BUFFER_SIZE = 1024`, so `sizesOk` is
preserved by Accept. -/
theorem claim_c5_buffer_growth (nd : Bool) (inp : ConnInput) (st : ServerSt)
    (c : ConnectionType) (hinv : ServerInv st) (hmem : c ∈ st.registry)
    (hsz : sizesOk st) (hfull : c.bufferFreeOffset = c.bufferSize) :
    (MAX_BUFFER_SIZE ≤ c.bufferSize →
      receiveConnection nd inp st c = closeConnection st c ∧
      ∃ st', closeConnection st c = Except.ok st' ∧ ServerInv st' ∧ sizesOk st' ∧
        st'.registry.length + 1 = st.registry.length ∧
        (∀ k' ∈ st'.registry, k'.id ≠ c.id) ∧
        (∀ k ∈ st.registry, k.id ≠ c.id →
          ∃ k' ∈ st'.registry, k'.id = k.id ∧ eqExceptIndex k k')) ∧
    (c.bufferSize < MAX_BUFFER_SIZE → inp.reallocOk = true →
      receiveConnection nd inp st c =
        receiveAfterGrow nd inp
          (updateConn st c.id (fun _ => { c with
            buffer := c.buffer ++ List.replicate c.bufferSize 0,
            bufferSize := c.bufferSize * 2 }))
          { c with
            buffer := c.buffer ++ List.replicate c.bufferSize 0,
            bufferSize := c.bufferSize * 2 } ∧
      sizesOk (updateConn st c.id (fun _ => { c with
        buffer := c.buffer ++ List.replicate c.bufferSize 0,
        bufferSize := c.bufferSize * 2 }))) ∧
    (∀ fd st0, sizesOk st0 → sizesOk (acceptNewConnection (some fd) st0)) := by
  refine ⟨?_, ?_, ?_⟩
  · intro hmax
    have heq : receiveConnection nd inp st c = closeConnection st c := by
      unfold receiveConnection
      rw [if_pos hfull, if_pos hmax]
    refine ⟨heq, ?_⟩
    obtain ⟨st', hok, hinv', _, hlen, hnoc, hkeep, hsurj, _⟩ :=
      closeConnection_spec st c hinv hmem
    refine ⟨st', hok, hinv', ?_, hlen, hnoc, hkeep⟩
    unfold sizesOk
    intro k' hk'
    obtain ⟨k, hk, _, heqx⟩ := hsurj k' hk'
    unfold eqExceptIndex at heqx
    rw [heqx]
    exact hsz k hk
  · intro hlt hre
    constructor
    · unfold receiveConnection
      rw [if_pos hfull, if_neg (Nat.not_le.2 hlt), if_neg (by simp [hre])]
    · obtain ⟨⟨e, hemem, he⟩, hblen⟩ := hsz c hmem
      have he10 : e < 11 := List.mem_range.1 hemem
      have he9 : e ≤ 9 := by
        by_contra hgt
        have he10' : e = 10 := by omega
        rw [he10'] at he
        rw [he] at hlt
        norm_num [MAX_BUFFER_SIZE] at hlt
      unfold sizesOk updateConn
      intro k' hk'
      simp only [List.mem_map] at hk'
      obtain ⟨k, hk, hk'eq⟩ := hk'
      by_cases hid : k.id = c.id
      · rw [if_pos hid] at hk'eq
        rw [← hk'eq]
        refine ⟨⟨e + 1, List.mem_range.2 (by omega), ?_⟩, ?_⟩
        · show c.bufferSize * 2 = 1024 * 2 ^ (e + 1)
          rw [he]
          ring
        · show (c.buffer ++ List.replicate c.bufferSize 0).length = c.bufferSize * 2
          rw [List.length_append, List.length_replicate, hblen]
          omega
      · rw [if_neg hid] at hk'eq
        rw [← hk'eq]
        exact hsz k hk
  · intro fd st0 hsz0
    have hreg : (acceptNewConnection (some fd) st0).registry =
        st0.registry ++ [{
          id := st0.nextId, status := statusType.statusIncomingRequest,
          fileFd := FileRef.nofile, socketFd := fd, bufferFreeOffset := 0,
          bufferLength := 0, bufferSize := BUFFER_SIZE,
          pollStructIndex := st0.nextFreePollStructIndex,
          buffer := List.replicate BUFFER_SIZE 0, body := 0,
          contentLength := 0 }] := by
      unfold acceptNewConnection acceptClaimSlot setSlot resizePollStruct
      dsimp only
      split <;> rfl
    unfold sizesOk
    intro k hk
    rw [hreg] at hk
    rcases List.mem_append.1 hk with hk | hk
    · exact hsz0 k hk
    · rw [List.mem_singleton.1 hk]
      refine ⟨⟨0, by decide, ?_⟩, ?_⟩
      · show BUFFER_SIZE = 1024 * 2 ^ 0
        decide
      · show (List.replicate BUFFER_SIZE 0).length = BUFFER_SIZE
        rw [List.length_replicate]

set_option maxRecDepth 100000 in
/-- Concrete growth step: the full 1024-byte connection is doubled to 2048
with the new half zeroed, and the size invariant survives. -/
theorem claim_c5_buffer_growth_witness :
    ServerInv stW5 ∧ sizesOk stW5 ∧ connW5 ∈ stW5.registry ∧
    connW5.bufferFreeOffset = connW5.bufferSize ∧
    connW5.bufferSize < MAX_BUFFER_SIZE ∧
    receiveConnection false inpW5 stW5 connW5 =
      receiveAfterGrow false inpW5
        (updateConn stW5 connW5.id (fun _ => { connW5 with
          buffer := connW5.buffer ++ List.replicate connW5.bufferSize 0,
          bufferSize := connW5.bufferSize * 2 }))
        { connW5 with
          buffer := connW5.buffer ++ List.replicate connW5.bufferSize 0,
          bufferSize := connW5.bufferSize * 2 } ∧
    sizesOk (updateConn stW5 connW5.id (fun _ => { connW5 with
      buffer := connW5.buffer ++ List.replicate connW5.bufferSize 0,
      bufferSize := connW5.bufferSize * 2 })) := by
  refine ⟨by decide, by decide, by decide, by decide, by decide, ?_⟩
  exact (claim_c5_buffer_growth false inpW5 stW5 connW5 (by decide) (by decide)
    (by decide) (by decide)).2.1 (by decide) rfl

/-- The `sent` local of `sendConnection`: bytes accepted by the socket, the
oracle result clamped to the `bufferLength - bufferFreeOffset` bytes offered. -/
def sentLen (sres : Nat) (c : ConnectionType) : Nat :=
  min sres (c.bufferLength - c.bufferFreeOffset)

/-- The `c1` local of `sendConnection`: the connection after the write, with
only the cursor advanced. -/
def advanceCursor (c : ConnectionType) (n : Nat) : ConnectionType :=
  { c with bufferFreeOffset := c.bufferFreeOffset + n }

/-- The `st1` local of `sendConnection`: the state after the write, with the
bytes `buffer[bufferFreeOffset .. bufferFreeOffset + n)` appended to the
ghost transcript of network output. -/
def afterSend (st : ServerSt) (c : ConnectionType) (n : Nat) : ServerSt :=
  { updateConn st c.id (fun _ => advanceCursor c n) with
    netSent := st.netSent ++ ((c.buffer.drop c.bufferFreeOffset).take
      (c.bufferLength - c.bufferFreeOffset)).take n }

theorem inv_netSent (u : ServerSt) (x : List Byte) (h : ServerInv u) :
    ServerInv { u with netSent := x } := h

/-- C7: one Send step on a connection with `bufferFreeOffset < bufferLength`,
for a socket that accepts `sres > 0` bytes.  The step sends exactly the bytes
`buffer[cursor .. cursor + sent)` where `sent = min sres (length - cursor)`
and advances the cursor by `sent`.  (a) If the buffer is not yet drained the
resulting state is exactly `afterSend`: the connection survives with only its
cursor changed and its status untouched.  (b) If the buffer is drained and no
file backs the connection, the connection is closed (removed from the
registry).  (c) If the buffer is drained and a file is attached, a file read
of up to `bufferSize - 1` bytes refills the buffer at offset 0 with
`bufferFreeOffset = 0` and `bufferLength` the bytes read when that is
positive, and the connection is closed on a zero-byte read (end of file). -/
theorem claim_c7_send_step (inp : ConnInput) (st : ServerSt) (c : ConnectionType)
    (hinv : ServerInv st) (hmem : c ∈ st.registry)
    (hlt : c.bufferFreeOffset < c.bufferLength)
    (sres : Nat) (hsres : inp.sendResult = some sres) (hpos : 0 < sres) :
    (c.bufferFreeOffset + sentLen sres c < c.bufferLength →
      sendConnection inp st c = Except.ok (afterSend st c (sentLen sres c)) ∧
      advanceCursor c (sentLen sres c) ∈ (afterSend st c (sentLen sres c)).registry ∧
      (advanceCursor c (sentLen sres c)).status = c.status) ∧
    (c.bufferFreeOffset + sentLen sres c = c.bufferLength →
      c.fileFd = FileRef.nofile →
      ∃ st', sendConnection inp st c = Except.ok st' ∧
        ∀ k' ∈ st'.registry, k'.id ≠ c.id) ∧
    (∀ d0, c.bufferFreeOffset + sentLen sres c = c.bufferLength →
      c.fileFd ≠ FileRef.nofile → inp.fileReadData = some d0 →
      (0 < (d0.take (c.bufferSize - 1)).length →
        sendConnection inp st c = Except.ok
          (updateConn (afterSend st c (sentLen sres c)) c.id (fun _ =>
            { advanceCursor c (sentLen sres c) with
              bufferFreeOffset := 0
              bufferLength := (d0.take (c.bufferSize - 1)).length
              buffer := writeBytesAt (advanceCursor c (sentLen sres c)).buffer 0
                (d0.take (c.bufferSize - 1)) })) ∧
        (d0.take (c.bufferSize - 1)).length ≤ c.bufferSize - 1) ∧
      ((d0.take (c.bufferSize - 1)).length = 0 →
        ∃ st', sendConnection inp st c = Except.ok st' ∧
          ∀ k' ∈ st'.registry, k'.id ≠ c.id)) := by
  have hsent0 : 0 < min sres (c.bufferLength - c.bufferFreeOffset) := by omega
  have hsb : sendBuffer inp c = Except.ok
      { c with bufferFreeOffset :=
        c.bufferFreeOffset + min sres (c.bufferLength - c.bufferFreeOffset) } := by
    unfold sendBuffer
    rw [hsres]
    dsimp only
    rw [if_neg (by omega)]
  have hinvU : ServerInv (afterSend st c (sentLen sres c)) := by
    unfold afterSend
    exact inv_netSent _ _ (updateConn_self_inv st c _ hinv hmem rfl rfl rfl)
  have hmemU : advanceCursor c (sentLen sres c) ∈
      (afterSend st c (sentLen sres c)).registry :=
    updateConn_mem_self st c _ hmem
  refine ⟨?_, ?_, ?_⟩
  · intro hp
    refine ⟨?_, hmemU, rfl⟩
    unfold sendConnection
    rw [if_pos hlt, hsb]
    dsimp only
    rw [if_neg (show ¬ c.bufferFreeOffset +
      min sres (c.bufferLength - c.bufferFreeOffset) = c.bufferLength by
        have := hp
        unfold sentLen at this
        omega)]
    rw [Nat.add_sub_cancel_left]
    rfl
  · intro hdrain hnofile
    unfold sentLen at hdrain
    obtain ⟨st', hok, _, _, _, hnoc, _⟩ :=
      closeConnection_spec (afterSend st c (sentLen sres c))
        (advanceCursor c (sentLen sres c)) hinvU hmemU
    have heq : sendConnection inp st c =
        closeConnection (afterSend st c (sentLen sres c))
          (advanceCursor c (sentLen sres c)) := by
      unfold sendConnection
      rw [if_pos hlt, hsb]
      dsimp only
      rw [if_pos hdrain, if_pos hnofile, Nat.add_sub_cancel_left]
      rfl
    exact ⟨st', heq.trans hok, hnoc⟩
  · intro d0 hdrain hfile hfrd
    unfold sentLen at hdrain
    constructor
    · intro hdpos
      constructor
      · unfold sendConnection
        rw [if_pos hlt, hsb]
        dsimp only
        rw [if_pos hdrain, if_neg hfile, hfrd]
        dsimp only
        rw [if_pos hdpos, Nat.add_sub_cancel_left]
        rfl
      · rw [List.length_take]
        omega
    · intro hd0
      obtain ⟨st', hok, _, _, _, hnoc, _⟩ :=
        closeConnection_spec (afterSend st c (sentLen sres c))
          (advanceCursor c (sentLen sres c)) hinvU hmemU
      have heq : sendConnection inp st c =
          closeConnection (afterSend st c (sentLen sres c))
            (advanceCursor c (sentLen sres c)) := by
        unfold sendConnection
        rw [if_pos hlt, hsb]
        dsimp only
        rw [if_pos hdrain, if_neg hfile, hfrd]
        dsimp only
        rw [if_neg (by omega), Nat.add_sub_cancel_left]
        rfl
      exact ⟨st', heq.trans hok, hnoc⟩

/-- Concrete partial write: the socket takes 2 of the 4 pending bytes, the
connection survives with only its cursor advanced. -/
theorem claim_c7_send_step_witness :
    ServerInv stW2 ∧ connW2 ∈ stW2.registry ∧
    connW2.bufferFreeOffset < connW2.bufferLength ∧
    sendConnection inpW stW2 connW2 =
      Except.ok (afterSend stW2 connW2 (sentLen 2 connW2)) ∧
    (advanceCursor connW2 (sentLen 2 connW2)).status = connW2.status := by
  obtain ⟨h1, _, h3⟩ :=
    (claim_c7_send_step inpW stW2 connW2 (by decide) (by decide) (by decide)
      2 rfl (by decide)).1 (by decide)
  exact ⟨by decide, by decide, by decide, h1, h3⟩

/-- Per-node effect of the distribution loop on the registry: a
`ChatReceiver` becomes a `statusOutgoingAnswer` node carrying the 200
response of `bufferHeaders` and the chat log open read-only; every other
node is untouched.  (The error arm is unreachable whenever the response
fits, as the fit lemmas show.) -/
def distributeTransform (t : Tm) (k : ConnectionType) : ConnectionType :=
  if k.status = statusType.statusChatReceiver then
    match bufferHeaders t k 200 with
    | Except.error _ => k
    | Except.ok c1 => { c1 with
        fileFd := FileRef.chatLogRO
        status := statusType.statusOutgoingAnswer }
  else k

theorem distributeTransform_id (t : Tm) (k : ConnectionType) :
    (distributeTransform t k).id = k.id := by
  unfold distributeTransform
  split
  · cases hbh : bufferHeaders t k 200 with
    | error e => rfl
    | ok c1 =>
      show c1.id = k.id
      exact (bufferHeaders_frame t k 200 c1 hbh).1
  · rfl

theorem bufferHeaders200_ok (t : Tm) (c : ConnectionType)
    (hdate : (strBytes (dateMessage t)).length + 1 ≤ 40)
    (hfit : (strBytes (dateMessage t)).length + 20 ≤ c.bufferSize) :
    ∃ c1, bufferHeaders t c 200 = Except.ok c1 := by
  unfold bufferHeaders
  rw [if_pos rfl]
  dsimp only
  rw [if_neg (by omega)]
  rw [if_neg (by
    have h17 : (strBytes "HTTP/1.0 200 OK\r\n").length = 17 := rfl
    omega)]
  exact ⟨_, rfl⟩

theorem distributeStep_receiver (nd : Bool) (t : Tm) (st : ServerSt)
    (conIt : ConnectionType)
    (hrecv : conIt.status = statusType.statusChatReceiver)
    (hcl : st.chatLogExists = true)
    (c1 : ConnectionType) (hbh : bufferHeaders t conIt 200 = Except.ok c1) :
    distributeStep nd t st conIt = Except.ok
      (setSlotEvents (updateConn st conIt.id (fun _ =>
        { c1 with
          fileFd := FileRef.chatLogRO
          status := statusType.statusOutgoingAnswer }))
        conIt.pollStructIndex POLLOUT) := by
  unfold distributeStep
  rw [if_pos hrecv, hbh]
  dsimp only
  rw [if_pos hcl, (bufferHeaders_frame t conIt 200 c1 hbh).2.2.2.1]

theorem distributeStep_other (nd : Bool) (t : Tm) (st : ServerSt)
    (conIt : ConnectionType)
    (hrecv : conIt.status ≠ statusType.statusChatReceiver) :
    distributeStep nd t st conIt = Except.ok st := by
  unfold distributeStep
  rw [if_neg hrecv]

/-- Full description of the distribution walk: run over a snapshot `l` of
pairwise-distinct live nodes in a state whose chat log exists, it succeeds,
transforms exactly the snapshot's nodes by `distributeTransform` (so
`ChatReceiver`s become senders-of-200, everything else is untouched), leaves
the chat log, the table size and all slots of non-receivers unchanged, and
switches every receiver's slot interest to `POLLOUT`. -/
theorem distributeAux_spec (nd : Bool) (t : Tm) (l : List ConnectionType) :
    ∀ st : ServerSt, ServerInv st → st.chatLogExists = true →
      (∀ k ∈ l, k ∈ st.registry) →
      ((l.map (fun k => k.id)).Nodup) →
      ((strBytes (dateMessage t)).length + 1 ≤ 40) →
      (∀ k ∈ l, k.status = statusType.statusChatReceiver →
        (strBytes (dateMessage t)).length + 20 ≤ k.bufferSize) →
      ∃ st', distributeAux nd t l st = Except.ok st' ∧
        ServerInv st' ∧
        st'.registry = st.registry.map (fun k =>
          if k.id ∈ l.map (fun k0 => k0.id) then distributeTransform t k else k) ∧
        st'.chatLog = st.chatLog ∧
        st'.chatLogExists = st.chatLogExists ∧
        st'.nextFreePollStructIndex = st.nextFreePollStructIndex ∧
        (∀ i, (∀ k ∈ l, k.status = statusType.statusChatReceiver →
            k.pollStructIndex ≠ i) →
          getSlot st' i = getSlot st i) ∧
        (∀ k ∈ l, k.status = statusType.statusChatReceiver →
          getSlot st' k.pollStructIndex =
            { getSlot st k.pollStructIndex with events := POLLOUT }) := by
  induction l with
  | nil =>
    intro st hinv hcl hmem hnd hdate hfit
    refine ⟨st, rfl, hinv, by simp, rfl, rfl, rfl, fun i _ => rfl,
      fun k hk => absurd hk (List.not_mem_nil k)⟩
  | cons conIt rest ih =>
    intro st hinv hcl hmem hnd hdate hfit
    have hmemC : conIt ∈ st.registry := hmem conIt (List.mem_cons_self _ _)
    rw [List.map_cons, List.nodup_cons] at hnd
    obtain ⟨hnotin, hndrest⟩ := hnd
    have hne_rest : ∀ k ∈ rest, k.id ≠ conIt.id := by
      intro k hk he
      exact hnotin (by rw [← he]; exact List.mem_map_of_mem _ hk)
    by_cases hrecv : conIt.status = statusType.statusChatReceiver
    · obtain ⟨c1, hbh⟩ := bufferHeaders200_ok t conIt hdate
        (hfit conIt (List.mem_cons_self _ _) hrecv)
      obtain ⟨hidF, hstF, hsoF, hixF, hbsF, hblF, hffF, hbdF, hclF⟩ :=
        bufferHeaders_frame t conIt 200 c1 hbh
      set c2 : ConnectionType := { c1 with
        fileFd := FileRef.chatLogRO
        status := statusType.statusOutgoingAnswer } with hc2def
      have hc2id : c2.id = conIt.id := hidF
      have hstep := distributeStep_receiver nd t st conIt hrecv hcl c1 hbh
      set st1 := setSlotEvents (updateConn st conIt.id (fun _ => c2))
        conIt.pollStructIndex POLLOUT with hst1def
      obtain ⟨hinv1, hcle1, _⟩ :=
        distributeStep_inv nd t st conIt hinv
          (inv_compat_self st hinv conIt hmemC) st1 hstep
      have hcl1 : st1.chatLogExists = true := by rw [hcle1, hcl]
      have hreg1 : st1.registry =
          st.registry.map (fun u => if u.id = conIt.id then c2 else u) := rfl
      have hmem1 : ∀ k ∈ rest, k ∈ st1.registry := by
        intro k hk
        have hne := hne_rest k hk
        rw [hreg1]
        have hx := List.mem_map_of_mem
          (fun u => if u.id = conIt.id then c2 else u)
          (hmem k (List.mem_cons_of_mem _ hk))
        simp only [if_neg hne] at hx
        exact hx
      obtain ⟨st'', hrun, hinv'', hreg'', hlog'', hcle'', hnf'', hframe'', hslots''⟩ :=
        ih st1 hinv1 hcl1 hmem1 hndrest hdate
          (fun k hk hr => hfit k (List.mem_cons_of_mem _ hk) hr)
      refine ⟨st'', ?_, hinv'', ?_, ?_, ?_, ?_, ?_, ?_⟩
      · unfold distributeAux
        rw [hstep]
        exact hrun
      · rw [hreg'', hreg1, List.map_map]
        apply List.map_congr_left
        intro k hk
        simp only [Function.comp_apply]
        by_cases hki : k.id = conIt.id
        · rw [if_pos hki]
          have hkc : k = conIt := nodup_map_inj hinv.2.2.2.2.1 hk hmemC hki
          subst hkc
          rw [if_neg (show c2.id ∉ rest.map (fun k0 => k0.id) by
            rw [hc2id]; exact hnotin)]
          rw [if_pos (show k.id ∈ (k :: rest).map (fun k0 => k0.id) by
            rw [List.map_cons]; exact List.mem_cons_self _ _)]
          unfold distributeTransform
          rw [if_pos hrecv]
          rw [hbh]
        · rw [if_neg hki]
          by_cases hmr : k.id ∈ rest.map (fun k0 => k0.id)
          · rw [if_pos hmr, if_pos (by
              rw [List.map_cons]; exact List.mem_cons_of_mem _ hmr)]
          · rw [if_neg hmr, if_neg (by
              rw [List.map_cons]
              intro hcmem
              rcases List.mem_cons.1 hcmem with h | h
              · exact hki h
              · exact hmr h)]
      · rw [hlog'']
        rfl
      · rw [hcle'']
        exact hcle1
      · rw [hnf'']
        rfl
      · intro i hno
        have hi1 : getSlot st'' i = getSlot st1 i :=
          hframe'' i (fun k hk hr => hno k (List.mem_cons_of_mem _ hk) hr)
        have hiC : conIt.pollStructIndex ≠ i :=
          hno conIt (List.mem_cons_self _ _) hrecv
        rw [hi1, hst1def]
        unfold setSlotEvents
        rw [getSlot_setSlot_ne _ _ _ _ hiC, getSlot_updateConn]
      · intro k hk hr
        rcases List.mem_cons.1 hk with hkC | hkR
        · rw [hkC]
          have hdiff : ∀ k' ∈ rest, k'.status = statusType.statusChatReceiver →
              k'.pollStructIndex ≠ conIt.pollStructIndex := by
            intro k' hk' _ hEq
            have hk'm : k' ∈ st.registry := hmem k' (List.mem_cons_of_mem _ hk')
            have hkk : k' = conIt := nodup_map_inj hinv.2.2.2.2.2.2.1 hk'm hmemC hEq
            exact hne_rest k' hk' (by rw [hkk])
          have h1 : getSlot st'' conIt.pollStructIndex =
              getSlot st1 conIt.pollStructIndex :=
            hframe'' conIt.pollStructIndex hdiff
          have hb' : conIt.pollStructIndex <
              (updateConn st conIt.id (fun _ => c2)).pollStruct.length := by
            have hb1 := (hinv.2.2.2.2.2.2.2.1 conIt hmemC).2
            have hb2 := hinv.2.2.1
            show conIt.pollStructIndex < st.pollStruct.length
            omega
          rw [h1, hst1def]
          unfold setSlotEvents
          rw [getSlot_setSlot_self _ _ _ hb', getSlot_updateConn]
        · have h2 : getSlot st'' k.pollStructIndex =
              { getSlot st1 k.pollStructIndex with events := POLLOUT } :=
            hslots'' k hkR hr
          have hkm : k ∈ st.registry := hmem k (List.mem_cons_of_mem _ hkR)
          have hne : k.pollStructIndex ≠ conIt.pollStructIndex := by
            intro hEq
            have hkk : k = conIt := nodup_map_inj hinv.2.2.2.2.2.2.1 hkm hmemC hEq
            exact hne_rest k hkR (by rw [hkk])
          rw [h2, hst1def]
          unfold setSlotEvents
          rw [getSlot_setSlot_ne _ _ _ _ (Ne.symm hne), getSlot_updateConn]
    · have hstep := distributeStep_other nd t st conIt hrecv
      obtain ⟨st'', hrun, hinv'', hreg'', hlog'', hcle'', hnf'', hframe'', hslots''⟩ :=
        ih st hinv hcl (fun k hk => hmem k (List.mem_cons_of_mem _ hk)) hndrest hdate
          (fun k hk hr => hfit k (List.mem_cons_of_mem _ hk) hr)
      refine ⟨st'', ?_, hinv'', ?_, hlog'', hcle'', hnf'', ?_, ?_⟩
      · unfold distributeAux
        rw [hstep]
        exact hrun
      · rw [hreg'']
        apply List.map_congr_left
        intro k hk
        by_cases hki : k.id = conIt.id
        · have hkc : k = conIt := nodup_map_inj hinv.2.2.2.2.1 hk hmemC hki
          subst hkc
          rw [if_neg hnotin, if_pos (show k.id ∈ (k :: rest).map (fun k0 => k0.id) by
            rw [List.map_cons]; exact List.mem_cons_self _ _)]
          unfold distributeTransform
          rw [if_neg hrecv]
        · by_cases hmr : k.id ∈ rest.map (fun k0 => k0.id)
          · rw [if_pos hmr, if_pos (by
              rw [List.map_cons]; exact List.mem_cons_of_mem _ hmr)]
          · rw [if_neg hmr, if_neg (by
              rw [List.map_cons]
              intro hcmem
              rcases List.mem_cons.1 hcmem with h | h
              · exact hki h
              · exact hmr h)]
      · intro i hno
        exact hframe'' i (fun k hk hr => hno k (List.mem_cons_of_mem _ hk) hr)
      · intro k hk hr
        rcases List.mem_cons.1 hk with hkC | hkR
        · subst hkC
          exact absurd hr hrecv
        · exact hslots'' k hkR hr

/-- C1: complete chat broadcast.  For a `ChatSender` whose body is fully
received (`body + contentLength ≤ bufferFreeOffset`), `checkChatMessageComplete`
(i) appends exactly the `contentLength` bytes starting at `body` to the chat
log (the open-append-write-close of `appendToChatLog`; no handle is retained
in any state field), (ii) closes the sender — exactly one registry node
disappears and no surviving node carries the sender's identity — and
(iii) turns every surviving `ChatReceiver` into a `statusOutgoingAnswer` node
holding the 200 response of `bufferHeaders`, the chat log open read-only as
its file descriptor, and `POLLOUT` interest in its poll slot, while every
surviving non-receiver is unchanged in all fields except possibly the slot
index the swap-remove of the close may reassign.  When the body is not yet
complete the call is a no-op. -/
theorem claim_c1_chat_broadcast (nd : Bool) (t : Tm) (st : ServerSt)
    (c : ConnectionType) (hinv : ServerInv st) (hmem : c ∈ st.registry)
    (_hsender : c.status = statusType.statusChatSender)
    (hcl : st.chatLogExists = true)
    (hdate : (strBytes (dateMessage t)).length + 1 ≤ 40)
    (hfit : ∀ k ∈ st.registry, k.status = statusType.statusChatReceiver →
      (strBytes (dateMessage t)).length + 20 ≤ k.bufferSize) :
    ((c.body : Int) + c.contentLength ≤ (c.bufferFreeOffset : Int) →
      ∃ st', checkChatMessageComplete nd t st c = Except.ok st' ∧
        ServerInv st' ∧
        st'.chatLog = st.chatLog ++
          (c.buffer.drop c.body).take c.contentLength.toNat ∧
        st'.registry.length + 1 = st.registry.length ∧
        (∀ k' ∈ st'.registry, k'.id ≠ c.id) ∧
        (∀ k ∈ st.registry, k.id ≠ c.id →
          k.status ≠ statusType.statusChatReceiver →
          ∃ k' ∈ st'.registry, k'.id = k.id ∧ eqExceptIndex k k') ∧
        (∀ k ∈ st.registry, k.id ≠ c.id →
          k.status = statusType.statusChatReceiver →
          ∃ k' ∈ st'.registry, ∃ k2 c1, k'.id = k.id ∧
            eqExceptIndex k k2 ∧ bufferHeaders t k2 200 = Except.ok c1 ∧
            k' = { c1 with
              fileFd := FileRef.chatLogRO
              status := statusType.statusOutgoingAnswer } ∧
            k'.status = statusType.statusOutgoingAnswer ∧
            k'.fileFd = FileRef.chatLogRO ∧
            (getSlot st' k'.pollStructIndex).events = POLLOUT)) ∧
    (¬ ((c.body : Int) + c.contentLength ≤ (c.bufferFreeOffset : Int)) →
      checkChatMessageComplete nd t st c = Except.ok st) := by
  constructor
  · intro hcond
    have happ : appendToChatLog nd st
        ((c.buffer.drop c.body).take c.contentLength.toNat) =
        Except.ok { st with chatLog := st.chatLog ++
          (c.buffer.drop c.body).take c.contentLength.toNat } := by
      unfold appendToChatLog
      rw [if_pos hcl]
    set stL : ServerSt :=
      { st with
        chatLog := st.chatLog ++ (c.buffer.drop c.body).take c.contentLength.toNat }
      with hstLdef
    have hinvL : ServerInv stL := hinv
    have hmemL : c ∈ stL.registry := hmem
    obtain ⟨st2, hok2, hinv2, hnf2, hlen2, hnoc2, hkeep2, hsurj2, hcl2, hcle2,
      hns2, hbf2, hnob2, hnid2, hlis2, hlast2, hswap2⟩ :=
      closeConnection_spec stL c hinvL hmemL
    have hcle2' : st2.chatLogExists = true := by
      rw [hcle2]
      exact hcl
    have hfit2 : ∀ k ∈ st2.registry, k.status = statusType.statusChatReceiver →
        (strBytes (dateMessage t)).length + 20 ≤ k.bufferSize := by
      intro k hk hr
      obtain ⟨k0, hk0, hid0, heq0⟩ := hsurj2 k hk
      unfold eqExceptIndex at heq0
      have hbs : k.bufferSize = k0.bufferSize := by rw [heq0]
      have hst : k.status = k0.status := by rw [heq0]
      rw [hbs]
      exact hfit k0 hk0 (by rw [← hst]; exact hr)
    obtain ⟨st3, hrun3, hinv3, hreg3, hlog3, hcle3, hnf3, hframe3, hslots3⟩ :=
      distributeAux_spec nd t st2.registry st2 hinv2 hcle2' (fun k hk => hk)
        hinv2.2.2.2.2.1 hdate hfit2
    refine ⟨st3, ?_, hinv3, ?_, ?_, ?_, ?_, ?_⟩
    · unfold checkChatMessageComplete
      rw [if_pos hcond, happ]
      dsimp only
      rw [hok2]
      dsimp only
      exact hrun3
    · rw [hlog3, hcl2]
    · rw [hreg3, List.length_map]
      exact hlen2
    · intro k' hk'
      rw [hreg3] at hk'
      obtain ⟨k2, hk2, hk'eq⟩ := List.mem_map.1 hk'
      have hgid : k'.id = k2.id := by
        rw [← hk'eq]
        by_cases hmm2 : k2.id ∈ st2.registry.map (fun k0 => k0.id)
        · rw [if_pos hmm2]
          exact distributeTransform_id t k2
        · rw [if_neg hmm2]
      rw [hgid]
      exact hnoc2 k2 hk2
    · intro k hk hkne hknr
      obtain ⟨k2, hk2, hid2, heq2⟩ := hkeep2 k hk hkne
      unfold eqExceptIndex at heq2
      have hst2 : k2.status = k.status := by rw [heq2]
      have hT : distributeTransform t k2 = k2 := by
        unfold distributeTransform
        rw [if_neg (by rw [hst2]; exact hknr)]
      have hmm : k2 ∈ st3.registry := by
        rw [hreg3]
        have hx := List.mem_map_of_mem (fun kk =>
          if kk.id ∈ st2.registry.map (fun k0 => k0.id)
          then distributeTransform t kk else kk) hk2
        simp only [if_pos (List.mem_map_of_mem (fun k0 => k0.id) hk2), hT] at hx
        exact hx
      exact ⟨k2, hmm, hid2, heq2⟩
    · intro k hk hkne hkr
      obtain ⟨k2, hk2, hid2, heq2⟩ := hkeep2 k hk hkne
      unfold eqExceptIndex at heq2
      have hst2 : k2.status = k.status := by rw [heq2]
      have hbs2 : k2.bufferSize = k.bufferSize := by rw [heq2]
      obtain ⟨c1, hbh⟩ := bufferHeaders200_ok t k2 hdate
        (by rw [hbs2]; exact hfit k hk hkr)
      have hT : distributeTransform t k2 = { c1 with
          fileFd := FileRef.chatLogRO
          status := statusType.statusOutgoingAnswer } := by
        unfold distributeTransform
        rw [if_pos (by rw [hst2]; exact hkr)]
        rw [hbh]
      have hmm : ({ c1 with
          fileFd := FileRef.chatLogRO
          status := statusType.statusOutgoingAnswer } : ConnectionType) ∈
          st3.registry := by
        rw [hreg3]
        have hx := List.mem_map_of_mem (fun kk =>
          if kk.id ∈ st2.registry.map (fun k0 => k0.id)
          then distributeTransform t kk else kk) hk2
        simp only [if_pos (List.mem_map_of_mem (fun k0 => k0.id) hk2), hT] at hx
        exact hx
      have hk'id : ({ c1 with
          fileFd := FileRef.chatLogRO
          status := statusType.statusOutgoingAnswer } : ConnectionType).id = k.id := by
        show c1.id = k.id
        rw [(bufferHeaders_frame t k2 200 c1 hbh).1, hid2]
      have hk'ix : ({ c1 with
          fileFd := FileRef.chatLogRO
          status := statusType.statusOutgoingAnswer } : ConnectionType).pollStructIndex =
          k2.pollStructIndex := by
        show c1.pollStructIndex = k2.pollStructIndex
        exact (bufferHeaders_frame t k2 200 c1 hbh).2.2.2.1
      have hev := hslots3 k2 hk2 (by rw [hst2]; exact hkr)
      refine ⟨_, hmm, k2, c1, hk'id, heq2, hbh, rfl, rfl, rfl, ?_⟩
      rw [hk'ix, hev]
  · intro hncond
    unfold checkChatMessageComplete
    rw [if_neg hncond]

/-- Witness chat sender whose 3-byte body `hi!` at offset 5 is complete. -/
def connW1s : ConnectionType := {
  id := 0, status := statusType.statusChatSender,
  fileFd := FileRef.nofile, socketFd := 5, bufferFreeOffset := 8, bufferLength := 0,
  bufferSize := 64, pollStructIndex := 1,
  buffer := strBytes "XXXXXhi!" ++ List.replicate 56 0,
  body := 5, contentLength := 3 }

/-- Witness chat receiver parked for the next message. -/
def connW1r : ConnectionType := {
  id := 1, status := statusType.statusChatReceiver,
  fileFd := FileRef.nofile, socketFd := 6, bufferFreeOffset := 0, bufferLength := 0,
  bufferSize := 64, pollStructIndex := 2, buffer := List.replicate 64 0,
  body := 0, contentLength := 0 }

/-- Witness state for the chat broadcast: a sender and a receiver. -/
def stW1c : ServerSt := {
  listeningSocket := 3,
  pollStruct := [{ fd := 3, events := POLLIN, revents := 0 },
    { fd := 5, events := POLLIN, revents := 0 },
    { fd := 6, events := POLLIN, revents := 0 }] ++ List.replicate 6 zeroPollfd,
  pollStructSize := 9, nextFreePollStructIndex := 3, registry := [connW1s, connW1r],
  nextId := 2, chatLogExists := true, chatLog := strBytes "old:", netSent := [],
  badFdWrite := false, nulOutOfBounds := false }

/-- Concrete chat broadcast: the sender's complete body is appended to the
log, the sender disappears, exactly one connection is removed. -/
theorem claim_c1_chat_broadcast_witness :
    ∃ st', checkChatMessageComplete false tW stW1c connW1s = Except.ok st' ∧
      st'.chatLog = stW1c.chatLog ++
        (connW1s.buffer.drop connW1s.body).take connW1s.contentLength.toNat ∧
      st'.registry.length + 1 = stW1c.registry.length ∧
      (∀ k' ∈ st'.registry, k'.id ≠ connW1s.id) := by
  obtain ⟨st', h1, _, h3, h4, h5, _, _⟩ :=
    (claim_c1_chat_broadcast false tW stW1c connW1s (by decide) (by decide)
      (by decide) (by decide) (by decide) (by decide)).1 (by decide)
  exact ⟨st', h1, h3, h4, h5⟩
